import Mathlib

/-!
Verification of the Extraction & Reconciliation Engine of the linkedin-cv
repository (`src/scraper/parser.py`, class `ProfileParser`).

The engine is a pure pipeline: an HTML string is parsed by the third-party
BeautifulSoup library into a queryable tree; the repository code then runs
CSS-selector cascades over that tree and merges the result with an embedded
JSON-LD block.  The shallow embedding below models:

* the third-party primitives of BeautifulSoup / soupsieve / `json` / `re`
  that the repository code calls (`select`, `select_one`, `find_all`,
  `get_text`, `json.loads`, `re.search`, `re.findall`) over an explicit
  HTML-tree datatype `HNode` (library behaviour, faithfully restricted to
  the selector syntax the repository actually uses; the HTML-string-to-tree
  step of BeautifulSoup is outside the repository and the embedding takes
  the already-built tree as input);
* every method of `ProfileParser` as a Lean function over that tree,
  with Python dictionaries represented as ordered association lists of a
  universal value type `PyVal` and a raised exception represented as
  `Option.none`.

Python-sensitive details that the code relies on are preserved: truthiness
of values, per-selector try/except treated as "no match", dictionaries
keeping insertion order, `str.split`/`str.replace`/`in` semantics.
-/

set_option autoImplicit false

namespace LCV

/-! ## String helpers

Models of the Python string methods the parser uses (`strip`, `lower`,
`replace`, `split`, `in`, `str.join`) and of the `re` fragments it
compiles.  All are structural recursions over the character list (ASCII
behaviour; the repository's selector strings and validity rules are
ASCII). -/

/-- Python `s.strip()`. -/
def trimS (s : String) : String :=
  String.mk (((s.data.dropWhile Char.isWhitespace).reverse.dropWhile Char.isWhitespace).reverse)

/-- Python `s.lower()` (ASCII). -/
def lowerS (s : String) : String := String.mk (s.data.map Char.toLower)

/-- `sep.join l` / `String.intercalate`. -/
def intercalateS (sep : String) : List String → String
  | [] => ""
  | [x] => x
  | x :: rest => x ++ sep ++ intercalateS sep rest

/-- Whitespace tokenisation (split, drop empties), accumulator-passing so
it stays structural. -/
def wsTokensAux : List Char → List Char → List String
  | acc, [] => if acc.isEmpty then [] else [String.mk acc.reverse]
  | acc, c :: rest =>
      if c.isWhitespace then
        if acc.isEmpty then wsTokensAux [] rest
        else String.mk acc.reverse :: wsTokensAux [] rest
      else wsTokensAux (c :: acc) rest

def wsTokens (s : String) : List String := wsTokensAux [] s.data

/-- Python `s.split(sep)` for a non-empty separator, fuelled by the input
length so the recursion is structural. -/
def splitOnFuel (sep : List Char) : Nat → List Char → List Char → List String
  | _, acc, [] => [String.mk acc.reverse]
  | 0, acc, rest => [String.mk (acc.reverse ++ rest)]
  | fuel + 1, acc, c :: rest =>
      if sep.isPrefixOf (c :: rest) then
        String.mk acc.reverse :: splitOnFuel sep fuel [] ((c :: rest).drop sep.length)
      else splitOnFuel sep fuel (c :: acc) rest

def splitOnS (s sep : String) : List String := splitOnFuel sep.data s.data.length [] s.data

/-- Python `s.replace(pat, rep)` (every non-overlapping occurrence, left to
right), fuelled like `splitOnFuel`. -/
def replaceFuel (pat rep : List Char) : Nat → List Char → List Char
  | _, [] => []
  | 0, rest => rest
  | fuel + 1, c :: rest =>
      if pat.isPrefixOf (c :: rest) then
        rep ++ replaceFuel pat rep fuel ((c :: rest).drop pat.length)
      else c :: replaceFuel pat rep fuel rest

def replaceS (s pat rep : String) : String :=
  String.mk (replaceFuel pat.data rep.data s.data.length s.data)

/-- Substring containment on character lists: Python's `needle in hay`. -/
def containsSub (needle : List Char) : List Char → Bool
  | [] => needle.isEmpty
  | c :: rest => needle.isPrefixOf (c :: rest) || containsSub needle rest

/-- Python's `sub in s` for strings. -/
def strContains (s sub : String) : Bool := containsSub sub.data s.data

/-- First match of `re.findall(r'\d+[\d,]*', s)`: the first maximal run
starting at a digit and continuing through digits and commas. -/
def numTokenFrom : List Char → Option String
  | [] => none
  | c :: rest =>
      if c.isDigit then some (String.mk (c :: rest.takeWhile (fun d => d.isDigit || d = ',')))
      else numTokenFrom rest

def firstNumToken (s : String) : Option String := numTokenFrom s.data

/-- First match of `re.findall(r'\d+', s)`: the first maximal digit run. -/
def digitRunFrom : List Char → Option String
  | [] => none
  | c :: rest =>
      if c.isDigit then some (String.mk (c :: rest.takeWhile Char.isDigit))
      else digitRunFrom rest

def firstDigitRun (s : String) : Option String := digitRunFrom s.data

def linkedinNeedle : List Char := "linkedin.com/in/".data

/-- `re.search(r"linkedin\.com/in/([^/]+)", url)` and `.group(1)`:
scan every position for the literal needle followed by a non-empty run of
non-`/` characters; the dot in the pattern is escaped, so it is literal. -/
def userCapture : List Char → Option String
  | [] => none
  | c :: rest =>
      if linkedinNeedle.isPrefixOf (c :: rest) then
        let after := (c :: rest).drop linkedinNeedle.length
        let cap := after.takeWhile (fun d => d ≠ '/')
        if cap.isEmpty then userCapture rest else some (String.mk cap)
      else userCapture rest

def usernameOfUrl (url : String) : Option String := userCapture url.data

/-! ## The HTML tree (BeautifulSoup document model)

`HNode.elem` is a tag with its attributes (as written in the markup, so the
`class` attribute is a raw space-separated string) and children in document
order; `HNode.htext` is a navigable string.  The root node passed to the
parser plays the role of the `BeautifulSoup` object itself. -/

inductive HNode where
  | elem (tag : String) (attrs : List (String × String)) (children : List HNode)
  | htext (s : String)
deriving Repr

mutual

def textStrings : HNode → List String
  | .htext s => [s]
  | .elem _ _ cs => textStringsL cs

def textStringsL : List HNode → List String
  | [] => []
  | c :: cs => textStrings c ++ textStringsL cs

end

/-- BeautifulSoup `get_text(separator=sep, strip=True)`: strip every
descendant string, drop the ones that become empty, join with `sep`. -/
def getText (sep : String) (n : HNode) : String :=
  intercalateS sep (((textStrings n).map trimS).filter (fun t => t ≠ ""))

/-- BeautifulSoup `.text`: concatenation of the descendant strings. -/
def getTextRaw (n : HNode) : String := intercalateS "" (textStrings n)

def tagOf : HNode → Option String
  | .elem t _ _ => some t
  | .htext _ => none

def attrOf (n : HNode) (k : String) : Option String :=
  match n with
  | .elem _ attrs _ => attrs.lookup k
  | .htext _ => none

/-- The classes of an element: the `class` attribute split on whitespace. -/
def classList (n : HNode) : List String :=
  match attrOf n "class" with
  | some s => wsTokens s
  | none => []

def childNodes : HNode → List HNode
  | .elem _ _ cs => cs
  | .htext _ => []

def isTag (t : String) (n : HNode) : Bool := tagOf n == some t

/-- Direct element children with a given tag: soupsieve `:scope > tag`. -/
def scopeChildrenTag (n : HNode) (t : String) : List HNode :=
  (childNodes n).filter (isTag t)

/-- BeautifulSoup `.string` for a `<script>` tag: the single child string
(`None` when the tag is empty or has several children). -/
def nodeString : HNode → Option String
  | .elem _ _ [.htext s] => some s
  | _ => none

/-! ## Document-order traversal with the context CSS matching needs:
ancestors (nearest first, scope root included) and the 1-based positional
indices `nth-child` / `nth-of-type` of every element. -/

structure PNode where
  node : HNode
  posChild : Nat
  posOfType : Nat
deriving Repr

structure SEntry where
  self : PNode
  anc : List PNode
deriving Repr

def countFor (tc : List (String × Nat)) (t : String) : Nat := (tc.lookup t).getD 0

mutual

def walkNode (nc nt : Nat) (anc : List PNode) : HNode → List SEntry
  | .htext _ => []
  | .elem t a cs =>
      ⟨⟨.elem t a cs, nc, nt⟩, anc⟩ :: walkKids (⟨.elem t a cs, nc, nt⟩ :: anc) 0 [] cs

def walkKids (anc : List PNode) (i : Nat) (tc : List (String × Nat)) :
    List HNode → List SEntry
  | [] => []
  | n :: rest =>
      match tagOf n with
      | none => walkKids anc i tc rest
      | some t =>
          walkNode (i + 1) (countFor tc t + 1) anc n ++
            walkKids anc (i + 1) ((t, countFor tc t + 1) :: tc) rest

end

/-- All element descendants of `root` in document order, each with its
ancestor chain (up to and including `root`) and positional indices.
`root` itself is not a candidate, matching `element.select` semantics. -/
def allEntries (root : HNode) : List SEntry :=
  match root with
  | .htext _ => []
  | .elem t a cs => walkKids [⟨.elem t a cs, 1, 1⟩] 0 [] cs

/-! ## CSS selectors (the soupsieve subset used by `ProfileParser`) -/

/-- One simple selector: optional tag, `.class` requirements (word match in
the `class` list), `[k="v"]`, `[k]`, `[k*="v"]`, `[k^="v"]`,
`:nth-child(n)`, `:nth-of-type(n)` and `:contains("s")`. -/
structure SSel where
  tag : Option String := none
  classes : List String := []
  attrEq : List (String × String) := []
  attrHas : List String := []
  attrSub : List (String × String) := []
  attrPre : List (String × String) := []
  nthChild : Option Nat := none
  nthOfType : Option Nat := none
  hasText : Option String := none
deriving Repr

inductive Comb where
  | desc
  | child
deriving Repr

/-- A compound selector: the rightmost (target) simple selector plus the
chain to its left, innermost first, each piece carrying the combinator that
links it towards the target. -/
structure CSel where
  target : SSel
  rest : List (Comb × SSel) := []
deriving Repr

def matchesP (s : SSel) (p : PNode) : Bool :=
  (match s.tag with | none => true | some t => tagOf p.node == some t) &&
  s.classes.all (fun c => (classList p.node).contains c) &&
  s.attrEq.all (fun kv => attrOf p.node kv.1 == some kv.2) &&
  s.attrHas.all (fun k => (attrOf p.node k).isSome) &&
  s.attrSub.all (fun kv =>
    match attrOf p.node kv.1 with
    | some v => strContains v kv.2
    | none => false) &&
  s.attrPre.all (fun kv =>
    match attrOf p.node kv.1 with
    | some v => kv.2.data.isPrefixOf v.data
    | none => false) &&
  (match s.nthChild with | none => true | some k => p.posChild == k) &&
  (match s.nthOfType with | none => true | some k => p.posOfType == k) &&
  (match s.hasText with | none => true | some t => strContains (getTextRaw p.node) t)

def matchAnc : List (Comb × SSel) → List PNode → Bool
  | [], _ => true
  | (.child, _) :: _, [] => false
  | (.child, s) :: rest, p :: anc => matchesP s p && matchAnc rest anc
  | (.desc, _) :: _, [] => false
  | (.desc, s) :: rest, p :: anc =>
      (matchesP s p && matchAnc rest anc) || matchAnc ((.desc, s) :: rest) anc
termination_by structural _ anc => anc

def matchesEntry (c : CSel) (e : SEntry) : Bool :=
  matchesP c.target e.self && matchAnc c.rest e.anc

/-- `element.select(sel1, sel2, …)` — a selector list is a comma-separated
CSS group; results come back in document order.  Candidates are the strict
descendants of the scoped element; ancestor combinators are resolved
against the chain up to and including the scope root (the repository's
selectors never depend on ancestors above the element they are scoped
to). -/
def selectAll (root : HNode) (sels : List CSel) : List HNode :=
  ((allEntries root).filter (fun e => sels.any (fun c => matchesEntry c e))).map
    (fun e => e.self.node)

/-- `element.select_one(…)`: first match in document order. -/
def selectOne (root : HNode) (sels : List CSel) : Option HNode :=
  (selectAll root sels).head?

/-- First matching entry, keeping the ancestor context (used to model
`element.parent`). -/
def firstEntryMatching (root : HNode) (sels : List CSel) : Option SEntry :=
  (allEntries root).find? (fun e => sels.any (fun c => matchesEntry c e))

/-! ## JSON values and a model of Python's `json.loads`

The parser is a plain recursive-descent recogniser over the character list,
with a fuel argument for termination.  It covers the JSON forms the
repository's structured-data blocks use (objects, arrays, strings without
escape sequences, integers, literals); inputs outside this subset are
treated as parse failures, and the concrete inputs used in the theorems
below stay inside the subset so the model and `json.loads` agree on them. -/

inductive Json where
  | jnull
  | jbool (b : Bool)
  | jnum (n : Int)
  | jstr (s : String)
  | jarr (elems : List Json)
  | jobj (fields : List (String × Json))
deriving Repr

def isWs (c : Char) : Bool := c = ' ' || c = '\n' || c = '\t' || c = '\r'

def skipWs (cs : List Char) : List Char := cs.dropWhile isWs

/-- Body of a JSON string literal, after the opening quote. -/
def pStrChars : List Char → Option (List Char × List Char)
  | [] => none
  | c :: rest =>
      if c = '"' then some ([], rest)
      else if c = '\\' then none
      else (pStrChars rest).map (fun r => (c :: r.1, r.2))

def digitsToNat (ds : List Char) : Nat :=
  ds.foldl (fun acc c => acc * 10 + (c.toNat - '0'.toNat)) 0

def pNum (cs : List Char) : Option (Int × List Char) :=
  match cs with
  | '-' :: rest =>
      let ds := rest.takeWhile Char.isDigit
      if ds.isEmpty then none
      else some (-(Int.ofNat (digitsToNat ds)), rest.drop ds.length)
  | _ =>
      let ds := cs.takeWhile Char.isDigit
      if ds.isEmpty then none
      else some (Int.ofNat (digitsToNat ds), cs.drop ds.length)

def pLit (lit : List Char) (v : Json) (cs : List Char) : Option (Json × List Char) :=
  if lit.isPrefixOf cs then some (v, cs.drop lit.length) else none

mutual

def pVal : Nat → List Char → Option (Json × List Char)
  | 0, _ => none
  | fuel + 1, cs =>
      match skipWs cs with
      | [] => none
      | c :: rest =>
          if c = '"' then (pStrChars rest).map (fun r => (Json.jstr (String.mk r.1), r.2))
          else if c = '[' then
            match skipWs rest with
            | ']' :: rest2 => some (Json.jarr [], rest2)
            | _ => (pItems fuel rest).map (fun r => (Json.jarr r.1, r.2))
          else if c = '\x7b' then
            match skipWs rest with
            | '\x7d' :: rest2 => some (Json.jobj [], rest2)
            | _ => (pFields fuel rest).map (fun r => (Json.jobj r.1, r.2))
          else if c = 'n' then pLit "ull".data Json.jnull rest
          else if c = 't' then pLit "rue".data (Json.jbool true) rest
          else if c = 'f' then pLit "alse".data (Json.jbool false) rest
          else (pNum (c :: rest)).map (fun r => (Json.jnum r.1, r.2))

def pItems : Nat → List Char → Option (List Json × List Char)
  | 0, _ => none
  | fuel + 1, cs =>
      match pVal fuel cs with
      | none => none
      | some (v, rest) =>
          match skipWs rest with
          | ',' :: rest2 => (pItems fuel rest2).map (fun r => (v :: r.1, r.2))
          | ']' :: rest2 => some ([v], rest2)
          | _ => none

def pFields : Nat → List Char → Option (List (String × Json) × List Char)
  | 0, _ => none
  | fuel + 1, cs =>
      match skipWs cs with
      | '"' :: rest =>
          match pStrChars rest with
          | none => none
          | some (k, rest2) =>
              match skipWs rest2 with
              | ':' :: rest3 =>
                  match pVal fuel rest3 with
                  | none => none
                  | some (v, rest4) =>
                      match skipWs rest4 with
                      | ',' :: rest5 =>
                          (pFields fuel rest5).map (fun r => ((String.mk k, v) :: r.1, r.2))
                      | '\x7d' :: rest5 => some ([(String.mk k, v)], rest5)
                      | _ => none
              | _ => none
      | _ => none

end

/-- `json.loads`: parse the whole string; trailing garbage is an error. -/
def jloads (s : String) : Option Json :=
  match pVal (s.length + 2) s.data with
  | some (j, rest) => if (skipWs rest).isEmpty then some j else none
  | none => none

/-- Python-dict lookup on a decoded object (`json.loads` keeps the last of
duplicate keys, so lookup favours the last occurrence). -/
def lookupLast (fields : List (String × Json)) (k : String) : Option Json :=
  fields.reverse.lookup k

def jget (j : Json) (k : String) : Option Json :=
  match j with
  | .jobj fields => lookupLast fields k
  | _ => none

/-- Python truthiness of a decoded JSON value. -/
def jfalsy : Json → Bool
  | .jnull => true
  | .jbool b => !b
  | .jnum n => n == 0
  | .jstr s => s == ""
  | .jarr xs => xs.isEmpty
  | .jobj fs => fs.isEmpty

/-! ## Python values: every runtime value the parser manipulates
(dicts keep insertion order; an absent key and a `None` value are
distinguished through `Option`). -/

inductive PyVal where
  | vNone
  | vBool (b : Bool)
  | vInt (n : Int)
  | vStr (s : String)
  | vList (xs : List PyVal)
  | vDict (kvs : List (String × PyVal))
deriving Repr

abbrev Dict := List (String × PyVal)

def truthy : PyVal → Bool
  | .vNone => false
  | .vBool b => b
  | .vInt n => n != 0
  | .vStr s => s != ""
  | .vList xs => !xs.isEmpty
  | .vDict kvs => !kvs.isEmpty

def truthyO : Option PyVal → Bool
  | some v => truthy v
  | none => false

/-- `d.get(k)` (first occurrence; the dicts built below have unique keys). -/
def dget (d : Dict) (k : String) : Option PyVal :=
  (d.find? (fun kv => kv.1 == k)).map (fun kv => kv.2)

/-- `d[k] = v`: overwrite in place, else append (insertion order). -/
def dset : Dict → String → PyVal → Dict
  | [], k, v => [(k, v)]
  | kv :: rest, k, v => if kv.1 == k then (k, v) :: rest else kv :: dset rest k v

def dkeys (d : Dict) : List String := d.map (fun kv => kv.1)

mutual

def pyOfJson : Json → PyVal
  | .jnull => .vNone
  | .jbool b => .vBool b
  | .jnum n => .vInt n
  | .jstr s => .vStr s
  | .jarr xs => .vList (pyOfJsonL xs)
  | .jobj fs => .vDict (pyOfJsonF fs)

def pyOfJsonL : List Json → List PyVal
  | [] => []
  | x :: xs => pyOfJson x :: pyOfJsonL xs

def pyOfJsonF : List (String × Json) → List (String × PyVal)
  | [] => []
  | (k, v) :: fs => (k, pyOfJson v) :: pyOfJsonF fs

end

mutual

/-- Python `str()` of a decoded JSON value (used by `str(...)` and
f-strings in the source). -/
def pyStr : Json → String
  | .jnull => "None"
  | .jbool b => if b then "True" else "False"
  | .jnum n => toString n
  | .jstr s => s
  | .jarr xs => "[" ++ intercalateS ", " (pyReprL xs) ++ "]"
  | .jobj fs => "\x7b" ++ intercalateS ", " (pyReprF fs) ++ "\x7d"

/-- Python `repr()` as used for container members. -/
def pyRepr : Json → String
  | .jnull => "None"
  | .jbool b => if b then "True" else "False"
  | .jnum n => toString n
  | .jstr s => "\x27" ++ s ++ "\x27"
  | .jarr xs => "[" ++ String.intercalate ", " (pyReprL xs) ++ "]"
  | .jobj fs => "\x7b" ++ String.intercalate ", " (pyReprF fs) ++ "\x7d"

def pyReprL : List Json → List String
  | [] => []
  | x :: xs => pyRepr x :: pyReprL xs

def pyReprF : List (String × Json) → List String
  | [] => []
  | (k, v) :: fs => ("\x27" ++ k ++ "\x27: " ++ pyRepr v) :: pyReprF fs

end

/-! ## `ProfileParser._extract_json_ld`

Source: the single `try` block wraps the whole loop over the
`application/ld+json` script tags, so an exception thrown by `json.loads`
on one block abandons the remaining blocks and returns `None`; a block
that parses but carries no Person record is skipped and scanning
continues. -/

/-- `data.get('@type') == 'Person'` (comparison with a non-string is
`False`). -/
def isPersonTag (j : Json) : Bool :=
  match jget j "@type" with
  | some (.jstr s) => s == "Person"
  | _ => false

/-- The inner `for item in data['@graph']` search. -/
def findPerson : List Json → Option Json
  | [] => none
  | item :: rest =>
      match item with
      | .jobj _ => if isPersonTag item then some item else findPerson rest
      | _ => findPerson rest

/-- `soup.find_all('script', {'type': 'application/ld+json'})`. -/
def ldScriptSel : CSel :=
  { target := { tag := some "script", attrEq := [("type", "application/ld+json")] } }

/-- The loop body of `_extract_json_ld` over the found script tags.
`none` is the `return None` of the surrounding function, reached either
when the loop ends, or when `json.loads` (or iterating a non-iterable
`@graph` value) raises and the `except` clause fires. -/
def scanJsonLd : List HNode → Option Json
  | [] => none
  | s :: rest =>
      match nodeString s with
      | none => scanJsonLd rest
      | some str =>
          if str == "" then scanJsonLd rest
          else
            match jloads str with
            | none => none
            | some data =>
                if isPersonTag data then some data
                else
                  match jget data "@graph" with
                  | some (.jarr items) =>
                      match findPerson items with
                      | some it => some it
                      | none => scanJsonLd rest
                  | some (.jobj _) => scanJsonLd rest
                  | some (.jstr _) => scanJsonLd rest
                  | some _ => none
                  | none => scanJsonLd rest

def extract_json_ld (soup : HNode) : Option Json :=
  scanJsonLd (selectAll soup [ldScriptSel])

/-! ## `ProfileParser._parse_json_ld` and its helpers

A Python exception raised while mapping the JSON-LD vocabulary (these
functions run outside any `try`) is modelled as `none` and propagates out
of `parse`. -/

/-- `for x in v` on a decoded JSON value: lists iterate elements, dicts
iterate their keys, strings iterate one-character strings; anything else
raises `TypeError`. -/
def pyIter : Json → Option (List Json)
  | .jarr xs => some xs
  | .jobj fs => some (fs.map (fun kv => Json.jstr kv.1))
  | .jstr s => some (s.data.map (fun c => Json.jstr (String.mk [c])))
  | _ => none

/-- Python `s.split(sep, 1)` given that `sep` occurs in `s`. -/
def splitFirst (s sep : String) : String × String :=
  match splitOnS s sep with
  | [] => (s, "")
  | [x] => (x, "")
  | x :: y => (x, intercalateS sep y)

def jldUsername (j : Json) : Option String :=
  match jget j "sameAs" with
  | none => some "linkedin-profile"
  | some (.jstr s) => some ((usernameOfUrl s).getD "linkedin-profile")
  | some _ => none

def jldProfilePic (j : Json) : PyVal :=
  match jget j "image" with
  | some (.jobj fs) => (lookupLast fs "contentUrl").elim .vNone pyOfJson
  | _ => .vNone

def jldName (j : Json) : PyVal :=
  (jget j "name").elim (.vStr "Name Not Found") pyOfJson

/-- `json_data.get('jobTitle', [None])[0] if isinstance(..., list) else …`;
an empty list raises `IndexError`. -/
def jldHeadline (j : Json) : Option PyVal :=
  match jget j "jobTitle" with
  | some (.jarr []) => none
  | some (.jarr (x :: _)) => some (pyOfJson x)
  | some v => some (pyOfJson v)
  | none => some .vNone

def addressKeys : List String := ["addressLocality", "addressRegion", "addressCountry"]

/-- `_parse_json_ld_location`.  `in` on a string checks substrings, on a
list membership, on a dict key presence; indexing a non-dict by a string
key or joining non-string parts raises. -/
def parse_json_ld_location (address : Json) : Option PyVal :=
  if jfalsy address then some .vNone
  else
    match address with
    | .jobj _ =>
        let parts := addressKeys.filterMap (fun k => jget address k)
        if parts.isEmpty then some .vNone
        else if parts.all (fun p => match p with | .jstr _ => true | _ => false) then
          some (.vStr (intercalateS ", "
            (parts.filterMap (fun p => match p with | .jstr s => some s | _ => none))))
        else none
    | .jstr s =>
        if addressKeys.any (fun k => strContains s k) then none else some .vNone
    | .jarr xs =>
        if addressKeys.any
            (fun k => xs.any (fun x => match x with | .jstr t => t == k | _ => false)) then
          none
        else some .vNone
    | _ => none

def parse_json_ld_stats (j : Json) : Dict :=
  match jget j "interactionStatistic" with
  | some (.jobj fs) =>
      match lookupLast fs "userInteractionCount" with
      | some v => [("followers", .vStr (pyStr v))]
      | none => []
  | some _ => []
  | none => []

/-- `_parse_json_ld_duration` over the `member` sub-object. -/
def parse_json_ld_duration (member : List (String × Json)) : PyVal :=
  match lookupLast member "startDate" with
  | none => .vNone
  | some start =>
      if jfalsy start then .vNone
      else
        match lookupLast member "endDate" with
        | some e =>
            if jfalsy e then .vStr (pyStr start ++ " - Present")
            else .vStr (pyStr start ++ " - " ++ pyStr e)
        | none => .vStr (pyStr start ++ " - Present")

/-- Title/company disambiguation of one `worksFor` entry: `' at ' in
org_name` (`TypeError` on numbers, booleans and `None`), then
`org_name.split(' at ', 1)` (`AttributeError` on non-strings). -/
def jldTitleCompany (org_name : Json) (member : List (String × Json)) :
    Option (Json × Option Json) :=
  match org_name with
  | .jstr s =>
      if strContains s " at " then
        let p := splitFirst s " at "
        some (.jstr (trimS p.1), some (.jstr (trimS p.2)))
      else if s == "" then some (.jstr s, none)
      else some ((lookupLast member "roleName").getD (.jstr "Position"), some (.jstr s))
  | .jarr xs =>
      if xs.any (fun x => match x with | .jstr t => t == " at " | _ => false) then none
      else if xs.isEmpty then some (org_name, none)
      else some ((lookupLast member "roleName").getD (.jstr "Position"), some org_name)
  | .jobj fs =>
      if (lookupLast fs " at ").isSome then none
      else if fs.isEmpty then some (org_name, none)
      else some ((lookupLast member "roleName").getD (.jstr "Position"), some org_name)
  | _ => none

/-- `description = member.get('description', ''); if description:
description = description.replace('*', '')` and the final
`description if description else None`. -/
def jldDescription (member : List (String × Json)) : Option (Option String) :=
  let dv := (lookupLast member "description").getD (.jstr "")
  if jfalsy dv then some none
  else
    match dv with
    | .jstr s =>
        let s2 := replaceS s "*" ""
        if s2 == "" then some none else some (some s2)
    | _ => none

/-- One entry of `_parse_json_ld_experience`'s loop (the entry is known to
be a dict). -/
def jldExpOne (wf : List (String × Json)) : Option Dict :=
  let org_name : Json := (lookupLast wf "name").getD (.jstr "")
  let member : List (String × Json) :=
    match lookupLast wf "member" with
    | some (.jobj fs) => fs
    | _ => []
  match jldTitleCompany org_name member with
  | none => none
  | some (title, company) =>
      match jldDescription member with
      | none => none
      | some desc =>
          let companyVal : Json :=
            match company with
            | some c =>
                if jfalsy c then (if jfalsy org_name then .jstr "Company" else org_name)
                else c
            | none => if jfalsy org_name then .jstr "Company" else org_name
          let locFallback : PyVal := (lookupLast member "location").elim .vNone pyOfJson
          let loc : PyVal :=
            match lookupLast wf "location" with
            | some v => if jfalsy v then locFallback else pyOfJson v
            | none => locFallback
          some [("title", pyOfJson title),
                ("company", pyOfJson companyVal),
                ("employment_type", (lookupLast member "employmentType").elim .vNone pyOfJson),
                ("duration", parse_json_ld_duration member),
                ("location", loc),
                ("description", match desc with | some s => .vStr s | none => .vNone),
                ("skills", .vList [])]

def jldExpList : List Json → Option (List Dict)
  | [] => some []
  | item :: rest =>
      match item with
      | .jobj fs =>
          match jldExpOne fs with
          | none => none
          | some e => (jldExpList rest).map (fun l => e :: l)
      | _ => jldExpList rest

/-- `_parse_json_ld_experience`. -/
def jldExperience (works_for : Json) : Option (List Dict) :=
  if jfalsy works_for then some []
  else
    match pyIter works_for with
    | none => none
    | some items => jldExpList items

def jldEduOne (ed : List (String × Json)) : Dict :=
  let member : List (String × Json) :=
    match lookupLast ed "member" with
    | some (.jobj fs) => fs
    | _ => []
  [("institution", (lookupLast ed "name").elim (.vStr "Institution") pyOfJson),
   ("degree", .vNone),
   ("field", .vNone),
   ("duration", parse_json_ld_duration member),
   ("grade", .vNone),
   ("activities", .vNone),
   ("description", .vNone)]

def jldEduList : List Json → List Dict
  | [] => []
  | .jobj fs :: rest => jldEduOne fs :: jldEduList rest
  | _ :: rest => jldEduList rest

/-- `_parse_json_ld_education`. -/
def jldEducation (alumni_of : Json) : Option (List Dict) :=
  if jfalsy alumni_of then some []
  else (pyIter alumni_of).map jldEduList

def jldLangList : List Json → List Dict
  | [] => []
  | .jobj fs :: rest =>
      [("name", (lookupLast fs "name").elim (.vStr "Language") pyOfJson),
       ("proficiency", .vNone)] :: jldLangList rest
  | .jstr s :: rest =>
      [("name", .vStr s), ("proficiency", .vNone)] :: jldLangList rest
  | _ :: rest => jldLangList rest

/-- `_parse_json_ld_languages`. -/
def jldLanguages (languages : Json) : Option (List Dict) :=
  if jfalsy languages then some []
  else (pyIter languages).map jldLangList

/-- `_parse_json_ld` (the `soup` argument is taken but never used by the
source). -/
def parse_json_ld (j : Json) (_soup : HNode) : Option Dict :=
  match jldUsername j with
  | none => none
  | some username =>
      match jldHeadline j with
      | none => none
      | some headline =>
          match parse_json_ld_location ((jget j "address").getD (.jobj [])) with
          | none => none
          | some loc =>
              match jldExperience ((jget j "worksFor").getD (.jarr [])) with
              | none => none
              | some exps =>
                  match jldEducation ((jget j "alumniOf").getD (.jarr [])) with
                  | none => none
                  | some edus =>
                      match jldLanguages ((jget j "knowsLanguage").getD (.jarr [])) with
                      | none => none
                      | some langs =>
                          some [("username", .vStr username),
                                ("name", jldName j),
                                ("headline", headline),
                                ("location", loc),
                                ("profile_picture_url", jldProfilePic j),
                                ("about",
                                  (jget j "disambiguatingDescription").elim .vNone pyOfJson),
                                ("contact_info", .vDict []),
                                ("stats", .vDict (parse_json_ld_stats j)),
                                ("experience", .vList (exps.map .vDict)),
                                ("education", .vList (edus.map .vDict)),
                                ("skills", .vList []),
                                ("certifications", .vList []),
                                ("languages", .vList (langs.map .vDict)),
                                ("volunteer", .vList []),
                                ("projects", .vList []),
                                ("publications", .vList []),
                                ("honors", (jget j "awards").elim (.vList []) pyOfJson),
                                ("courses", .vList [])]

/-! ## Selector shorthands (each constant carries the source CSS string) -/

def stag (t : String) : SSel := { tag := some t }

def stc (t : String) (cs : List String) : SSel := { tag := some t, classes := cs }

def scls (cs : List String) : SSel := { classes := cs }

/-- `span[aria-hidden="true"]` -/
def spanHidden : SSel := { tag := some "span", attrEq := [("aria-hidden", "true")] }

def one (s : SSel) : CSel := { target := s }

def desc2 (outer inner : SSel) : CSel := { target := inner, rest := [(.desc, outer)] }

def desc3 (a b c : SSel) : CSel := { target := c, rest := [(.desc, b), (.desc, a)] }

def childOf (outer inner : SSel) : CSel := { target := inner, rest := [(.child, outer)] }

/-! ## The `SELECTORS` table of `ProfileParser` -/

def nameSelectors : List CSel :=
  [one (stc "h1" ["text-heading-xlarge"]),
   one (stc "h1" ["text-heading-xlarge", "inline", "t-24"]),
   one { tag := some "h1", attrSub := [("class", "top-card")] },
   one { attrHas := ["data-generated-suggestion-target"] },
   desc2 (stc "div" ["pv-text-details__left-panel"]) (stag "h1"),
   one (stc "h1" ["inline", "t-24"])]

def headlineSelectors : List CSel :=
  [one (stc "div" ["text-body-medium", "break-words"]),
   one (stc "div" ["text-body-medium"]),
   one { tag := some "div", attrSub := [("class", "headline")] },
   desc2 (stc "div" ["pv-text-details__left-panel"]) (stc "div" ["text-body-medium"]),
   one (stc "h2" ["mt1", "t-18"]),
   one (scls ["top-card__headline"])]

def locationSelectors : List CSel :=
  [one (stc "span" ["text-body-small", "inline", "t-black--light", "break-words"]),
   one (stc "span" ["text-body-small"]),
   desc2 (stc "div" ["pv-text-details__left-panel"]) (stc "span" ["text-body-small"]),
   one (stc "span" ["t-16", "t-black", "t-normal"]),
   one (stc "div" ["top-card__subline-item"])]

def profilePhotoSelectors : List CSel :=
  [one (stc "img" ["pv-top-card-profile-picture__image"]),
   one { tag := some "img", attrSub := [("class", "profile-photo")] },
   desc2 (stag "button") { tag := some "img", attrHas := ["data-ghost-classes"] },
   desc2 (stc "div" ["profile-photo-edit__preview"]) (stag "img")]

def aboutSelectors : List CSel :=
  [desc3 { tag := some "section", attrEq := [("id", "about")] }
     (stc "div" ["pv-shared-text-with-see-more"]) spanHidden,
   desc2 (stc "div" ["pv-shared-text-with-see-more"]) spanHidden,
   desc2 { tag := some "section", attrEq := [("data-section", "summary")] } spanHidden,
   desc2 (stc "div" ["pv-about__summary-text"]) (stag "span"),
   desc2 (stc "div" ["inline-show-more-text"]) spanHidden]

def emailSelectors : List CSel :=
  [one { tag := some "a", attrPre := [("href", "mailto:")] },
   desc2 (stc "section" ["pv-contact-info"]) { tag := some "a", attrPre := [("href", "mailto:")] }]

def phoneSelectors : List CSel :=
  [one { tag := some "span", classes := ["t-14", "t-black", "t-normal"],
         attrSub := [("class", "phone")] },
   desc2 (stc "section" ["pv-contact-info"]) { tag := some "span", attrSub := [("class", "phone")] }]

def websiteSelectors : List CSel :=
  [one (stc "a" ["pv-contact-info__contact-link"]),
   desc2 (stc "section" ["pv-contact-info"]) { tag := some "a", attrPre := [("href", "http")] }]

def connectionSelectors : List CSel :=
  [one { tag := some "span", classes := ["t-bold"], attrSub := [("class", "connection")] },
   desc2 (stc "li" ["pv-top-card--list-bullet"]) (stc "span" ["t-bold"])]

def followerSelectors : List CSel :=
  [one { tag := some "span", classes := ["t-bold"], attrSub := [("class", "follower")] }]

/-! ## Basic-field extractors (`_extract_username` … `_extract_stats`) -/

/-- One selector-cascade loop: `select_one`, extract text, return the first
text passing the field-specific check (a failing check falls through to the
next selector, and the per-selector `try/except` makes a lookup error a
plain miss). -/
def cascade (soup : HNode) (sels : List CSel) (ext : HNode → String)
    (valid : String → Bool) : Option String :=
  sels.findSome? (fun s =>
    match selectOne soup [s] with
    | some el => let t := ext el; if valid t then some t else none
    | none => none)

/-- `soup.find("link", {"rel": "canonical"})` (`rel` is a multi-valued
attribute, so BeautifulSoup matches any of its space-separated words). -/
def findCanonicalHref (soup : HNode) : Option String :=
  match (allEntries soup).find? (fun e =>
      isTag "link" e.self.node &&
      (match attrOf e.self.node "rel" with
       | some r => (wsTokens r).contains "canonical"
       | none => false)) with
  | some e => attrOf e.self.node "href"
  | none => none

def extract_username (soup : HNode) : String :=
  match findCanonicalHref soup with
  | some href =>
      if href == "" then "linkedin-profile"
      else (usernameOfUrl href).getD "linkedin-profile"
  | none => "linkedin-profile"

def extract_name (soup : HNode) : String :=
  (cascade soup nameSelectors (getText "") (fun t => t != "")).getD "Name Not Found"

def extract_headline (soup : HNode) : Option String :=
  cascade soup headlineSelectors (getText "")
    (fun t => t != "" && !strContains (lowerS t) "connections")

def extract_location (soup : HNode) : Option String :=
  cascade soup locationSelectors (getText "")
    (fun t => t != "" && decide (t.length < 100) && !strContains (lowerS t) "connection")

def extract_about (soup : HNode) : Option String :=
  cascade soup aboutSelectors (getText "\n\n")
    (fun t => t != "" && decide (20 < t.length))

def extract_profile_picture (soup : HNode) : Option String :=
  profilePhotoSelectors.findSome? (fun s =>
    match selectOne soup [s] with
    | some img =>
        match attrOf img "src" with
        | some src => if src != "" && strContains src "http" then some src else none
        | none => none
    | none => none)

def optField (k : String) (v : Option PyVal) : Dict :=
  match v with
  | some x => [(k, x)]
  | none => []

def extract_contact_info (soup : HNode) : Dict :=
  let email := emailSelectors.findSome? (fun s =>
    match selectOne soup [s] with
    | some el =>
        match attrOf el "href" with
        | some href =>
            if href != "" then
              let em := replaceS href "mailto:" ""
              if strContains em "@" then some em else none
            else none
        | none => none
    | none => none)
  let phone := phoneSelectors.findSome? (fun s =>
    match selectOne soup [s] with
    | some el => let t := getText "" el; if t != "" then some t else none
    | none => none)
  let website := websiteSelectors.findSome? (fun s =>
    (selectAll soup [s]).findSome? (fun el =>
      match attrOf el "href" with
      | some href =>
          if href != "" && !strContains href "linkedin.com" then some href else none
      | none => none))
  optField "email" (email.map .vStr) ++ optField "phone" (phone.map .vStr) ++
    optField "website" (website.map .vStr)

def extract_stats (soup : HNode) : Dict :=
  let conn := connectionSelectors.findSome? (fun s =>
    match selectOne soup [s] with
    | some el => firstNumToken (getText "" el)
    | none => none)
  let foll := followerSelectors.findSome? (fun s =>
    match selectOne soup [s] with
    | some el => firstNumToken (getText "" el)
    | none => none)
  optField "connections" (conn.map .vStr) ++ optField "followers" (foll.map .vStr)

/-- `_safe_extract`: `select_one` plus stripped text, `None` on a miss. -/
def safe_extract (e : HNode) (sel : CSel) : Option String :=
  (selectOne e [sel]).map (getText "")

/-! ## Experience section (`_extract_experience` and helpers) -/

/-- `div.display-flex.align-items-center span[aria-hidden="true"]` -/
def alignTitleSel : CSel := desc2 (stc "div" ["display-flex", "align-items-center"]) spanHidden

/-- `div.display-flex span[aria-hidden="true"]` -/
def flexSpanSel : CSel := desc2 (stc "div" ["display-flex"]) spanHidden

/-- `span.t-14.t-normal.t-black--light span[aria-hidden="true"]` -/
def tBlackLightSpanSel : CSel := desc2 (stc "span" ["t-14", "t-normal", "t-black--light"]) spanHidden

/-- `span.t-14.t-normal.t-black--light:nth-of-type(2) span[aria-hidden="true"]` -/
def tBlackLight2SpanSel : CSel :=
  { target := spanHidden,
    rest := [(.desc, { tag := some "span", classes := ["t-14", "t-normal", "t-black--light"],
                       nthOfType := some 2 })] }

/-- `span.t-14.t-normal span[aria-hidden="true"]` -/
def tNormalSpanSel : CSel := desc2 (stc "span" ["t-14", "t-normal"]) spanHidden

/-- `div.pv-shared-text-with-see-more span[aria-hidden="true"]` -/
def seeMoreSpanSel : CSel := desc2 (stc "div" ["pv-shared-text-with-see-more"]) spanHidden

/-- `div.inline-show-more-text span[aria-hidden="true"]` -/
def showMoreSpanSel : CSel := desc2 (stc "div" ["inline-show-more-text"]) spanHidden

/-- `span.t-14.t-normal:contains("Skills:")` -/
def skillsContainsSel : CSel :=
  one { tag := some "span", classes := ["t-14", "t-normal"], hasText := some "Skills:" }

def groupedEmpTypes : List String :=
  ["Full-time", "Part-time", "Contract", "Freelance", "Internship"]

def singleEmpTypes : List String :=
  ["Full-time", "Part-time", "Contract", "Freelance", "Internship", "Self-employed", "Seasonal"]

def durationMarkers : List String := ["-", "Present", "mo", "yr"]

/-- The `is_truly_grouped` check run on one nested item: a candidate title
node whose stripped text is non-empty and shorter than 200 characters. -/
def titleQualifies (nested_item : HNode) : Bool :=
  match selectOne nested_item [alignTitleSel] with
  | some tElem =>
      let t := getText "" tElem
      decide (0 < t.length) && decide (t.length < 200)
  | none => false

/-- The grouping classifier of `_extract_experience`: look at the item's
first nested `ul` (`item.select_one('ul')`) and test its direct `li`
children. -/
def classifyGrouped (item : HNode) : Bool :=
  match selectOne item [one (stag "ul")] with
  | some nested_list => (scopeChildrenTag nested_list "li").any titleQualifies
  | none => false

/-- One role of `_extract_grouped_experience`'s nested loop. -/
def extractRole (nested_item : HNode) : Dict :=
  let title := (selectOne nested_item [flexSpanSel]).map (getText "")
  let empT :=
    match selectOne nested_item [tNormalSpanSel] with
    | some el =>
        let t := getText "" el
        if groupedEmpTypes.any (fun p => strContains t p) then some t else none
    | none => none
  let duration := (selectAll nested_item [tBlackLightSpanSel]).findSome? (fun el =>
    let t := getText "" el
    if durationMarkers.any (fun m => strContains t m) then some t else none)
  let location :=
    (selectAll nested_item [one (stc "span" ["t-14", "t-normal", "t-black--light"])]).findSome?
      (fun el =>
        let t := getText "" el
        if t != "" && (match duration with | some d => t != d | none => true) &&
            !strContains t "·" then some t
        else none)
  let descr :=
    match selectOne nested_item [seeMoreSpanSel] with
    | some el => some (getText "\n" el)
    | none =>
        match selectOne nested_item [showMoreSpanSel] with
        | some el => some (getText "\n" el)
        | none => none
  let skills :=
    match selectOne nested_item [skillsContainsSel] with
    | some el =>
        let st := getText "" el
        if strContains st "Skills:" then
          match (splitOnS st "Skills:").get? 1 with
          | some seg =>
              some (((splitOnS (trimS seg) "·").map trimS).filter (fun s => s != ""))
          | none => none
        else none
    | none => none
  optField "title" (title.map .vStr) ++ optField "employment_type" (empT.map .vStr) ++
    optField "duration" (duration.map .vStr) ++ optField "location" (location.map .vStr) ++
    optField "description" (descr.map .vStr) ++
    optField "skills" (skills.map (fun l => .vList (l.map .vStr)))

/-- The grouped entry dict, in the source's insertion order. -/
def groupedExpDict (company totalDur location : Option String) (roles : List Dict) : Dict :=
  optField "company" (company.map .vStr) ++
    (optField "total_duration" (totalDur.map .vStr) ++
      (optField "location" (location.map .vStr) ++
        [("roles", .vList (roles.map .vDict)), ("is_grouped", .vBool true)]))

/-- `_extract_grouped_experience`: company-level fields, one role per
`ul > li` nested item (kept when its title is truthy), and the grouped
entry only when at least one role survived. -/
def extract_grouped_experience (item : HNode) : Option Dict :=
  let company := (selectOne item [flexSpanSel]).map (getText "")
  let totalDur := (selectOne item [tBlackLightSpanSel]).map (getText "")
  let location := (selectOne item [tBlackLight2SpanSel]).map (getText "")
  let nested_items := selectAll item [childOf (stag "ul") (stag "li")]
  let roles := (nested_items.map extractRole).filter (fun r => truthyO (dget r "title"))
  if roles.isEmpty then none
  else some (groupedExpDict company totalDur location roles)

def singleTitleSelectors : List CSel :=
  [alignTitleSel,
   flexSpanSel,
   desc2 { tag := some "div", attrSub := [("class", "entity-result__title")] } spanHidden,
   desc2 (stc "div" ["t-bold"]) (stag "span"),
   desc2 (stag "h3") spanHidden,
   desc2 (stc "div" ["mr1", "t-bold"]) (stag "span"),
   desc2 (scls ["pv-entity__role-details-container"]) (stc "div" ["t-bold"])]

def singleCompanySelectors : List CSel :=
  [tNormalSpanSel,
   one (stc "div" ["pv-entity__secondary-title"]),
   one (stc "span" ["pv-entity__secondary-title"]),
   one { tag := some "div", attrSub := [("class", "company-name")] },
   one { tag := some "a", attrSub := [("data-control-name", "background_details_company")] }]

def singleEmpTypeSelectors : List CSel :=
  [tBlackLightSpanSel,
   one (stc "span" ["pv-entity__secondary-title"])]

def singleDurationSelectors : List CSel :=
  [tBlackLightSpanSel,
   desc2 (stc "span" ["pv-entity__date-range"]) { tag := some "span", nthChild := some 2 },
   desc2 (stc "div" ["pv-entity__date-range"]) (stag "span"),
   one { tag := some "span", attrSub := [("class", "date-range")] }]

def singleLocationSelectors : List CSel :=
  [desc2 (stc "span" ["t-14", "t-normal", "t-black--light"]) (stc "span" ["visually-hidden"]),
   desc2 (stc "span" ["pv-entity__location"]) { tag := some "span", nthChild := some 2 },
   desc2 (stc "div" ["pv-entity__location"]) (stag "span")]

def singleDescriptionSelectors : List CSel :=
  [seeMoreSpanSel,
   showMoreSpanSel,
   desc2 { tag := some "div", attrSub := [("class", "show-more-less")] } spanHidden,
   one (stc "div" ["pv-entity__description"]),
   one { tag := some "div", attrSub := [("class", "description")] }]

def singleSkillsSelectors : List CSel :=
  [desc2 { tag := some "div", attrSub := [("class", "skill")] } spanHidden,
   desc2 (stc "div" ["pv-skill-category-entity__name"]) (stag "span")]

/-- The single-position entry dict, in the source's insertion order. -/
def singleExpDict (title company empT duration location descr : Option String)
    (skills : List String) : Dict :=
  optField "title" (title.map .vStr) ++
    (optField "company" (company.map .vStr) ++
      (optField "employment_type" (empT.map .vStr) ++
        (optField "duration" (duration.map .vStr) ++
          (optField "location" (location.map .vStr) ++
            (optField "description" (descr.map .vStr) ++
              (if skills.isEmpty then [] else [("skills", .vList (skills.map .vStr))]))))))

/-- `_extract_single_experience`. -/
def extract_single_experience (item : HNode) : Option Dict :=
  let title := singleTitleSelectors.findSome? (fun s =>
    match safe_extract item s with
    | some t => if t != "" then some t else none
    | none => none)
  let company := singleCompanySelectors.findSome? (fun s =>
    match safe_extract item s with
    | some c =>
        if c != "" && (match title with | some t => c != t | none => true) then some c
        else none
    | none => none)
  let empT := singleEmpTypeSelectors.findSome? (fun s =>
    (selectAll item [s]).findSome? (fun el =>
      let t := getText "" el
      if singleEmpTypes.any (fun p => strContains t p) then some t else none))
  let duration := singleDurationSelectors.findSome? (fun s =>
    match safe_extract item s with
    | some d =>
        if d != "" && durationMarkers.any (fun m => strContains d m) then some d else none
    | none => none)
  let location := singleLocationSelectors.findSome? (fun s =>
    match safe_extract item s with
    | some l =>
        if l != "" && (match duration with | some d => l != d | none => true) then some l
        else none
    | none => none)
  let descr := singleDescriptionSelectors.findSome? (fun s =>
    match selectOne item [s] with
    | some el =>
        let d := getText "\n" el
        if d != "" && decide (10 < d.length) then some d else none
    | none => none)
  let skills := singleSkillsSelectors.flatMap (fun s =>
    (selectAll item [s]).filterMap (fun el =>
      let t := getText "" el
      if t != "" && decide (t.length < 50) then some t else none))
  let d : Dict := singleExpDict title company empT duration location descr skills
  if d.isEmpty then none else some d

def expSectionSelectors : List CSel :=
  [one { tag := some "section", attrEq := [("id", "experience")] },
   one { tag := some "section", attrEq := [("id", "experience")] },
   one { tag := some "section", attrEq := [("data-section", "experience")] }]

/-- The anchor fallback: `soup.select_one('div[id=…]')` whose parent is a
`section`. -/
def anchorSectionParent (soup : HNode) (anchorId : String) : Option HNode :=
  match firstEntryMatching soup [one { tag := some "div", attrEq := [("id", anchorId)] }] with
  | some e =>
      match e.anc.head? with
      | some p => if isTag "section" p.node then some p.node else none
      | none => none
  | none => none

/-- `section.select('ul, div.pvs-list__container')` -/
def expContainerSels : List CSel := [one (stag "ul"), one (stc "div" ["pvs-list__container"])]

/-- The per-item loop of `_extract_experience`: classify, then keep a
grouped entry when truthy, or a single entry when it has a truthy title. -/
def experienceFromItems : List HNode → List Dict
  | [] => []
  | item :: rest =>
      if classifyGrouped item then
        match extract_grouped_experience item with
        | some e => e :: experienceFromItems rest
        | none => experienceFromItems rest
      else
        match extract_single_experience item with
        | some e =>
            if truthyO (dget e "title") then e :: experienceFromItems rest
            else experienceFromItems rest
        | none => experienceFromItems rest

def find_experience_section (soup : HNode) : Option HNode :=
  match expSectionSelectors.findSome? (fun s => selectOne soup [s]) with
  | some s => some s
  | none => anchorSectionParent soup "experience"

/-- `_extract_experience` (the debug flag only gates `print` calls). -/
def extract_experience (_debug : Bool) (soup : HNode) : List Dict :=
  match find_experience_section soup with
  | none => []
  | some sect =>
      (selectAll sect expContainerSels).flatMap
        (fun container => experienceFromItems (scopeChildrenTag container "li"))

/-! ## Education section (`_extract_education`, `_extract_single_education`) -/

/-- The shared "first selector returning a non-empty item list" loop. -/
def pickItems (sect : HNode) (sels : List CSel) : List HNode :=
  match sels.findSome? (fun s =>
      let items := selectAll sect [s]
      if items.isEmpty then none else some items) with
  | some items => items
  | none => []

def eduSectionSelectors : List CSel :=
  [one { tag := some "section", attrSub := [("id", "education")] },
   one { tag := some "section", attrEq := [("data-section", "education")] },
   one { tag := some "div", attrEq := [("id", "education-section")] },
   one (stc "section" ["pv-profile-section", "education-section"])]

def eduItemSelectors : List CSel :=
  [one (stc "li" ["pvs-list__paged-list-item"]),
   one (stc "li" ["artdeco-list__item"]),
   one { tag := some "li", attrSub := [("class", "profile")] },
   one (stc "div" ["pv-education-entity"])]

/-- `h3 span[aria-hidden="true"]` -/
def h3SpanSel : CSel := desc2 (stag "h3") spanHidden

/-- `div.t-bold span` -/
def tBoldSpanSel : CSel := desc2 (stc "div" ["t-bold"]) (stag "span")

def institutionSelectors : List CSel :=
  [alignTitleSel, h3SpanSel, tBoldSpanSel, one (stc "div" ["pv-entity__school-name"])]

def degreeSelectors : List CSel :=
  [tNormalSpanSel,
   desc2 (stc "div" ["pv-entity__degree-name"]) (stag "span"),
   one (stc "p" ["pv-entity__secondary-title"])]

def eduFieldSelectors : List CSel :=
  [tNormalSpanSel,
   desc2 (stc "div" ["pv-entity__fos"]) (stag "span"),
   one (stc "p" ["pv-entity__fos"])]

def eduDurationSelectors : List CSel :=
  [tBlackLightSpanSel,
   desc2 (stc "span" ["pv-entity__dates"]) { tag := some "span", nthChild := some 2 },
   desc2 (stc "div" ["pv-entity__dates"]) (stag "span")]

def gradeSelectors : List CSel :=
  [one { tag := some "span", attrSub := [("class", "grade")] },
   desc2 (stc "div" ["pv-entity__grade"]) (stag "span")]

def activitiesSelectors : List CSel :=
  [desc2 (stc "div" ["pv-entity__extra-details"]) (stag "span"),
   desc2 { tag := some "div", attrSub := [("class", "activities")] } spanHidden]

def eduDescriptionSelectors : List CSel :=
  [seeMoreSpanSel, showMoreSpanSel, one (stc "div" ["pv-entity__description"])]

def extract_single_education (item : HNode) : Option Dict :=
  let institution := institutionSelectors.findSome? (fun s =>
    match safe_extract item s with
    | some t => if t != "" then some t else none
    | none => none)
  let degreeText := degreeSelectors.findSome? (fun s =>
    match safe_extract item s with
    | some t => if t != "" then some t else none
    | none => none)
  let dfp : Option String × Option String :=
    match degreeText with
    | some t =>
        if strContains t "," then
          let p := splitFirst t ","
          (some (trimS p.1), some (trimS p.2))
        else (some t, none)
    | none => (none, none)
  let degree := dfp.1
  let field :=
    match dfp.2 with
    | some f => some f
    | none => eduFieldSelectors.findSome? (fun s =>
        (selectAll item [s]).findSome? (fun el =>
          let t := getText "" el
          if t != "" && (match degree with | some d => t != d | none => true) &&
              (match institution with | some i => t != i | none => true) then some t
          else none))
  let duration := eduDurationSelectors.findSome? (fun s =>
    match safe_extract item s with
    | some d =>
        if d != "" && (strContains d "-" || strContains d "Present" || decide (4 ≤ d.length))
        then some d else none
    | none => none)
  let grade := gradeSelectors.findSome? (fun s =>
    match safe_extract item s with
    | some g => if g != "" then some g else none
    | none => none)
  let activities := activitiesSelectors.findSome? (fun s =>
    match safe_extract item s with
    | some a => if a != "" && decide (5 < a.length) then some a else none
    | none => none)
  let descr := eduDescriptionSelectors.findSome? (fun s =>
    match selectOne item [s] with
    | some el =>
        let d := getText "\n" el
        if d != "" && decide (10 < d.length) then some d else none
    | none => none)
  let d : Dict :=
    optField "institution" (institution.map .vStr) ++ optField "degree" (degree.map .vStr) ++
      optField "field" (field.map .vStr) ++ optField "duration" (duration.map .vStr) ++
      optField "grade" (grade.map .vStr) ++ optField "activities" (activities.map .vStr) ++
      optField "description" (descr.map .vStr)
  if d.isEmpty then none else some d

def extract_education (soup : HNode) : List Dict :=
  let sec :=
    match eduSectionSelectors.findSome? (fun s => selectOne soup [s]) with
    | some s => some s
    | none => anchorSectionParent soup "education"
  match sec with
  | none => []
  | some sect =>
      (pickItems sect eduItemSelectors).filterMap (fun item =>
        match extract_single_education item with
        | some edu =>
            if truthyO (dget edu "institution") || truthyO (dget edu "degree") then some edu
            else none
        | none => none)

/-! ## Skills section (`_extract_skills`, `_extract_single_skill`) -/

def skillsSectionSelectors : List CSel :=
  [one { tag := some "section", attrSub := [("id", "skills")] },
   one { tag := some "section", attrEq := [("data-section", "skills")] },
   one { tag := some "div", attrEq := [("id", "skills-section")] },
   one (stc "section" ["pv-profile-section", "pv-skill-categories-section"])]

def skillNameSelectors : List CSel :=
  [alignTitleSel,
   one (stc "span" ["pv-skill-category-entity__name"]),
   tBoldSpanSel,
   one (stc "p" ["pv-skill-category-entity__name"])]

def endorsementSelectors : List CSel :=
  [desc2 (stc "span" ["t-14", "t-black--light"]) spanHidden,
   one (stc "span" ["pv-skill-category-entity__endorsement-count"]),
   desc2 (stag "button") (stc "span" ["t-bold"])]

def extract_single_skill (item : HNode) : Option Dict :=
  let name := skillNameSelectors.findSome? (fun s =>
    match safe_extract item s with
    | some n => if n != "" && decide (n.length < 100) then some n else none
    | none => none)
  let endors := endorsementSelectors.findSome? (fun s =>
    match selectOne item [s] with
    | some el => (firstDigitRun (getText "" el)).map (fun ds => Int.ofNat (digitsToNat ds.data))
    | none => none)
  let d : Dict := optField "name" (name.map .vStr) ++ optField "endorsements" (endors.map .vInt)
  let d := if (dget d "endorsements").isNone && (dget d "name").isSome then
      d ++ [("endorsements", .vInt 0)]
    else d
  if d.isEmpty then none else some d

/-- `find_all("div", {"class": re.compile(r".*skill.*")})`: a `div` one of
whose classes contains `skill`. -/
def skillClassHit (n : HNode) : Bool :=
  (classList n).any (fun c => strContains c "skill")

/-- The fallback scan, with its "not already added" exact-name check
against the accumulated list. -/
def skillsFallbackLoop : List HNode → List Dict → List Dict
  | [], acc => acc
  | el :: rest, acc =>
      let t := getText "" el
      if t != "" && decide (t.length < 100) &&
          !(acc.any (fun s =>
            match dget s "name" with
            | some (.vStr n) => n == t
            | _ => false)) then
        skillsFallbackLoop rest (acc ++ [[("name", .vStr t), ("endorsements", .vInt 0)]])
      else skillsFallbackLoop rest acc

/-- The pre-deduplication part of `_extract_skills` on a found section:
structured item scan, else the loose class-based fallback. -/
def gather_skills (sect : HNode) : List Dict :=
  let skill_items := selectAll sect
    [one (stc "div" ["pv-skill-category-entity"]), one (stc "li" ["pvs-list__paged-list-item"])]
  if !skill_items.isEmpty then
    skill_items.filterMap (fun item =>
      match extract_single_skill item with
      | some sk => if truthyO (dget sk "name") then some sk else none
      | none => none)
  else
    skillsFallbackLoop
      (((allEntries sect).filter (fun e => isTag "div" e.self.node && skillClassHit e.self.node)).map
        (fun e => e.self.node))
      []

/-- The lowered de-duplication key, `skill.get('name', '').lower()` (the
`name` value is a string in every entry the gathering stage emits). -/
def lowerName (sk : Dict) : String :=
  lowerS (match dget sk "name" with | some (.vStr s) => s | _ => "")

/-- The final loop of `_extract_skills`: case-insensitive de-duplication by
name, keeping first occurrences in order. -/
def dedupLoop : List Dict → List String → List Dict → List Dict
  | [], _, acc => acc
  | sk :: rest, seen, acc =>
      let nm := lowerName sk
      if nm != "" && !seen.contains nm then dedupLoop rest (nm :: seen) (acc ++ [sk])
      else dedupLoop rest seen acc

def find_skills_section (soup : HNode) : Option HNode :=
  match skillsSectionSelectors.findSome? (fun s => selectOne soup [s]) with
  | some s => some s
  | none => anchorSectionParent soup "skills"

def extract_skills (soup : HNode) : List Dict :=
  match find_skills_section soup with
  | none => []
  | some sect => dedupLoop (gather_skills sect) [] []

/-! ## Certifications (`_extract_certifications`) -/

def certSectionSelectors : List CSel :=
  [one { tag := some "section", attrSub := [("id", "licenses")] },
   one { tag := some "section", attrSub := [("id", "certifications")] },
   one { tag := some "section", attrEq := [("data-section", "certifications")] },
   one { tag := some "div", attrEq := [("id", "certifications-section")] }]

def certAnchorIds : List String := ["licenses", "certifications", "licenses_and_certifications"]

def certItemSelectors : List CSel :=
  [one (stc "li" ["pvs-list__paged-list-item"]),
   one (stc "li" ["artdeco-list__item"]),
   one { tag := some "li", attrSub := [("class", "certification")] }]

def certNameSelectors : List CSel :=
  [alignTitleSel, h3SpanSel, tBoldSpanSel,
   desc2 (stc "div" ["pv-certifications__summary-info"]) (stag "h3")]

def certIssuerSelectors : List CSel :=
  [tNormalSpanSel,
   desc2 (stc "div" ["pv-certifications__summary-info"]) (stag "p"),
   one { tag := some "span", attrSub := [("class", "issuer")] }]

def certDateSelectors : List CSel :=
  [tBlackLightSpanSel,
   desc2 (stc "div" ["pv-certifications__summary-info"]) (stc "span" ["t-14"]),
   one { tag := some "span", attrSub := [("class", "date")] }]

def credSelectors : List CSel :=
  [desc2 { tag := some "div", attrSub := [("class", "credential")] } spanHidden,
   one { tag := some "span", attrSub := [("class", "credential-id")] }]

def certUrlSelectors : List CSel :=
  [one { tag := some "a", attrSub := [("href", "credential")] },
   one { tag := some "a", attrSub := [("class", "certification-url")] }]

def extract_single_certification (item : HNode) : Option Dict :=
  let name := certNameSelectors.findSome? (fun s =>
    match safe_extract item s with
    | some n => if n != "" then some n else none
    | none => none)
  let issuer := certIssuerSelectors.findSome? (fun s =>
    match safe_extract item s with
    | some i =>
        if i != "" && (match name with | some n => i != n | none => true) then some i else none
    | none => none)
  let date := certDateSelectors.findSome? (fun s =>
    match safe_extract item s with
    | some t => if t != "" then some t else none
    | none => none)
  let credential := credSelectors.findSome? (fun s =>
    match safe_extract item s with
    | some c => if c != "" && strContains (lowerS c) "credential" then some c else none
    | none => none)
  let credId := credential.map (fun c =>
    if strContains c ":" then trimS (splitFirst c ":").2 else c)
  let url := certUrlSelectors.findSome? (fun s =>
    match selectOne item [s] with
    | some l =>
        match attrOf l "href" with
        | some h => if h != "" then some h else none
        | none => none
    | none => none)
  let d : Dict :=
    optField "name" (name.map .vStr) ++ optField "issuer" (issuer.map .vStr) ++
      optField "date" (date.map .vStr) ++ optField "credential_id" (credId.map .vStr) ++
      optField "url" (url.map .vStr)
  if d.isEmpty then none else some d

def extract_certifications (soup : HNode) : List Dict :=
  let sec :=
    match certSectionSelectors.findSome? (fun s => selectOne soup [s]) with
    | some s => some s
    | none => certAnchorIds.findSome? (anchorSectionParent soup)
  match sec with
  | none => []
  | some sect =>
      (pickItems sect certItemSelectors).filterMap (fun item =>
        match extract_single_certification item with
        | some c => if truthyO (dget c "name") then some c else none
        | none => none)

/-! ## Languages (`_extract_languages`, `_extract_single_language`) -/

def langSectionSelectors : List CSel :=
  [one { tag := some "section", attrSub := [("id", "languages")] },
   one { tag := some "section", attrEq := [("data-section", "languages")] },
   one { tag := some "div", attrEq := [("id", "languages-section")] },
   one (stc "section" ["pv-profile-section", "languages-section"])]

def langItemSelectors : List CSel :=
  [one (stc "li" ["pvs-list__paged-list-item"]),
   one (stc "li" ["artdeco-list__item"]),
   one { tag := some "li", attrSub := [("class", "language")] }]

def langNameSelectors : List CSel :=
  [alignTitleSel, h3SpanSel, tBoldSpanSel, one (stc "span" ["pv-entity__language-name"])]

def proficiencySelectors : List CSel :=
  [tBlackLightSpanSel,
   one (stc "div" ["pv-entity__proficiency"]),
   one { tag := some "span", attrSub := [("class", "proficiency")] }]

def extract_single_language (item : HNode) : Option Dict :=
  let name := langNameSelectors.findSome? (fun s =>
    match safe_extract item s with
    | some n => if n != "" && decide (n.length < 100) then some n else none
    | none => none)
  let prof := proficiencySelectors.findSome? (fun s =>
    match safe_extract item s with
    | some p => if p != "" then some p else none
    | none => none)
  let d : Dict := optField "name" (name.map .vStr) ++ optField "proficiency" (prof.map .vStr)
  let d := if (dget d "name").isSome && (dget d "proficiency").isNone then
      d ++ [("proficiency", .vStr "Professional working proficiency")]
    else d
  if d.isEmpty then none else some d

def langClassHit (n : HNode) : Bool :=
  (classList n).any (fun c => strContains c "language")

def extract_languages (soup : HNode) : List Dict :=
  match langSectionSelectors.findSome? (fun s => selectOne soup [s]) with
  | none => []
  | some sect =>
      let langs := (pickItems sect langItemSelectors).filterMap (fun item =>
        match extract_single_language item with
        | some l => if truthyO (dget l "name") then some l else none
        | none => none)
      if !langs.isEmpty then langs
      else
        (((allEntries sect).filter (fun e => isTag "div" e.self.node && langClassHit e.self.node)).map
            (fun e => e.self.node)).filterMap (fun el =>
          let t := getText "" el
          if t != "" && decide (t.length < 100) then
            some [("name", .vStr t), ("proficiency", .vStr "Professional working proficiency")]
          else none)

/-! ## Volunteer (`_extract_volunteer`, `_extract_single_volunteer`) -/

def volSectionSelectors : List CSel :=
  [one { tag := some "section", attrSub := [("id", "volunteer")] },
   one { tag := some "section", attrEq := [("data-section", "volunteering")] },
   one { tag := some "div", attrEq := [("id", "volunteering-section")] }]

def volItemSelectors : List CSel :=
  [one (stc "li" ["pvs-list__paged-list-item"]),
   one (stc "li" ["artdeco-list__item"]),
   one { tag := some "li", attrSub := [("class", "volunteer")] }]

def volRoleSelectors : List CSel := [alignTitleSel, h3SpanSel, tBoldSpanSel]

def volOrgSelectors : List CSel :=
  [tNormalSpanSel, one { tag := some "div", attrSub := [("class", "organization")] }]

def volDurationSelectors : List CSel :=
  [tBlackLightSpanSel, one { tag := some "span", attrSub := [("class", "date-range")] }]

def causeSelectors : List CSel :=
  [one { tag := some "span", attrSub := [("class", "cause")] },
   desc2 { tag := some "div", attrSub := [("class", "cause")] } spanHidden]

def volDescSelectors : List CSel := [seeMoreSpanSel, showMoreSpanSel]

def extract_single_volunteer (item : HNode) : Option Dict :=
  let role := volRoleSelectors.findSome? (fun s =>
    match safe_extract item s with
    | some r => if r != "" then some r else none
    | none => none)
  let org := volOrgSelectors.findSome? (fun s =>
    match safe_extract item s with
    | some o =>
        if o != "" && (match role with | some r => o != r | none => true) then some o else none
    | none => none)
  let duration := volDurationSelectors.findSome? (fun s =>
    match safe_extract item s with
    | some t => if t != "" then some t else none
    | none => none)
  let cause := causeSelectors.findSome? (fun s =>
    match safe_extract item s with
    | some c =>
        if c != "" && strContains (lowerS c) "cause" then
          some (trimS (replaceS c "Cause:" ""))
        else none
    | none => none)
  let descr := volDescSelectors.findSome? (fun s =>
    match selectOne item [s] with
    | some el =>
        let t := getText "\n" el
        if t != "" && decide (10 < t.length) then some t else none
    | none => none)
  let d : Dict :=
    optField "role" (role.map .vStr) ++ optField "organization" (org.map .vStr) ++
      optField "duration" (duration.map .vStr) ++ optField "cause" (cause.map .vStr) ++
      optField "description" (descr.map .vStr)
  if d.isEmpty then none else some d

def extract_volunteer (soup : HNode) : List Dict :=
  match volSectionSelectors.findSome? (fun s => selectOne soup [s]) with
  | none => []
  | some sect =>
      (pickItems sect volItemSelectors).filterMap (fun item =>
        match extract_single_volunteer item with
        | some v =>
            if truthyO (dget v "role") || truthyO (dget v "organization") then some v else none
        | none => none)

/-! ## Projects / publications / honors (shared flat pattern) -/

def projSectionSelectors : List CSel :=
  [one { tag := some "section", attrSub := [("id", "projects")] },
   one { tag := some "section", attrEq := [("data-section", "projects")] }]

def pubSectionSelectors : List CSel :=
  [one { tag := some "section", attrSub := [("id", "publications")] },
   one { tag := some "section", attrEq := [("data-section", "publications")] }]

def honorsSectionSelectors : List CSel :=
  [one { tag := some "section", attrSub := [("id", "honors")] },
   one { tag := some "section", attrSub := [("id", "awards")] },
   one { tag := some "section", attrEq := [("data-section", "honors")] }]

/-- `li.pvs-list__paged-list-item, li.artdeco-list__item, li` -/
def flatItemSels : List CSel :=
  [one (stc "li" ["pvs-list__paged-list-item"]),
   one (stc "li" ["artdeco-list__item"]),
   one (stag "li")]

/-- Python `a or b` over optional strings (an empty string is falsy). -/
def pyOrS : Option String → Option String → Option String
  | some s, b => if s == "" then b else some s
  | none, b => b

/-- The three-way `or` of title/name lookups in the flat extractors. -/
def flatTitle (item : HNode) : Option String :=
  pyOrS (pyOrS (safe_extract item flexSpanSel) (safe_extract item h3SpanSel))
    (safe_extract item (one (stc "div" ["t-bold"])))

def flatDate (item : HNode) : Option String :=
  pyOrS (safe_extract item tBlackLightSpanSel)
    (safe_extract item (one (stc "span" ["t-14", "t-normal", "t-black--light"])))

def extract_projects (soup : HNode) : List Dict :=
  match projSectionSelectors.findSome? (fun s => selectOne soup [s]) with
  | none => []
  | some sect =>
      (selectAll sect flatItemSels).filterMap (fun item =>
        match flatTitle item with
        | some name =>
            if name == "" then none
            else
              let descr :=
                match selectOne item [seeMoreSpanSel] with
                | some el => some (getText "\n" el)
                | none =>
                    match selectOne item [one (stc "div" ["inline-show-more-text"])] with
                    | some el => some (getText "\n" el)
                    | none => none
              let date :=
                match flatDate item with
                | some t => if t == "" then none else some t
                | none => none
              let url :=
                match selectOne item [one { tag := some "a", attrHas := ["href"] }] with
                | some l =>
                    match attrOf l "href" with
                    | some h => if h != "" && strContains h "http" then some h else none
                    | none => none
                | none => none
              some ([("name", PyVal.vStr name)] ++ optField "description" (descr.map .vStr) ++
                optField "date" (date.map .vStr) ++ optField "url" (url.map .vStr))
        | none => none)

def extract_publications (soup : HNode) : List Dict :=
  match pubSectionSelectors.findSome? (fun s => selectOne soup [s]) with
  | none => []
  | some sect =>
      (selectAll sect flatItemSels).filterMap (fun item =>
        match flatTitle item with
        | some title =>
            if title == "" then none
            else
              let publisher :=
                match pyOrS (safe_extract item tNormalSpanSel)
                    (safe_extract item (one (stc "span" ["t-14", "t-normal"]))) with
                | some p => if p != "" && p != title then some p else none
                | none => none
              let date :=
                match flatDate item with
                | some t => if t == "" then none else some t
                | none => none
              let descr := (selectOne item [seeMoreSpanSel]).map (getText "\n")
              some ([("title", PyVal.vStr title)] ++ optField "publisher" (publisher.map .vStr) ++
                optField "date" (date.map .vStr) ++ optField "description" (descr.map .vStr))
        | none => none)

def extract_honors (soup : HNode) : List Dict :=
  match honorsSectionSelectors.findSome? (fun s => selectOne soup [s]) with
  | none => []
  | some sect =>
      (selectAll sect flatItemSels).filterMap (fun item =>
        match flatTitle item with
        | some title =>
            if title == "" then none
            else
              let issuer :=
                match pyOrS (safe_extract item tNormalSpanSel)
                    (safe_extract item (one (stc "span" ["t-14", "t-normal"]))) with
                | some p => if p != "" && p != title then some p else none
                | none => none
              let date :=
                match flatDate item with
                | some t => if t == "" then none else some t
                | none => none
              let descr := (selectOne item [seeMoreSpanSel]).map (getText "\n")
              some ([("title", PyVal.vStr title)] ++ optField "issuer" (issuer.map .vStr) ++
                optField "date" (date.map .vStr) ++ optField "description" (descr.map .vStr))
        | none => none)

/-! ## Courses (`_extract_courses`) -/

def extract_courses (soup : HNode) : List String :=
  match (allEntries soup).find? (fun e =>
      isTag "section" e.self.node &&
      (match attrOf e.self.node "id" with
       | some i => strContains i "courses"
       | none => false)) with
  | none => []
  | some e =>
      (((allEntries e.self.node).filter (fun le => isTag "li" le.self.node)).map
          (fun le => getText "" le.self.node)).filter (fun t => t != "")

/-! ## `ProfileParser.parse` -/

/-- The dict literal built from the HTML-side extractors. -/
def domProfile (debug : Bool) (soup : HNode) : Dict :=
  [("username", .vStr (extract_username soup)),
   ("name", .vStr (extract_name soup)),
   ("headline", ((extract_headline soup).map PyVal.vStr).getD .vNone),
   ("location", ((extract_location soup).map PyVal.vStr).getD .vNone),
   ("profile_picture_url", ((extract_profile_picture soup).map PyVal.vStr).getD .vNone),
   ("about", ((extract_about soup).map PyVal.vStr).getD .vNone),
   ("contact_info", .vDict (extract_contact_info soup)),
   ("stats", .vDict (extract_stats soup)),
   ("experience", .vList ((extract_experience debug soup).map .vDict)),
   ("education", .vList ((extract_education soup).map .vDict)),
   ("skills", .vList ((extract_skills soup).map .vDict)),
   ("certifications", .vList ((extract_certifications soup).map .vDict)),
   ("languages", .vList ((extract_languages soup).map .vDict)),
   ("volunteer", .vList ((extract_volunteer soup).map .vDict)),
   ("projects", .vList ((extract_projects soup).map .vDict)),
   ("publications", .vList ((extract_publications soup).map .vDict)),
   ("honors", .vList ((extract_honors soup).map .vDict)),
   ("courses", .vList ((extract_courses soup).map .vStr))]

/-- The JSON-LD merge loop: `if not profile_data.get(key) and value:
profile_data[key] = value`. -/
def mergeJsonLd (d : Dict) (jld : Dict) : Dict :=
  jld.foldl (fun acc kv =>
    if !truthyO (dget acc kv.1) && truthy kv.2 then dset acc kv.1 kv.2 else acc) d

/-- `profile_data["sections"] = [k for k, v in … if v and k not in ["username"]]`. -/
def addSections (d : Dict) : Dict :=
  dset d "sections"
    (.vList ((d.filter (fun kv => truthy kv.2 && kv.1 != "username")).map
      (fun kv => PyVal.vStr kv.1)))

/-- `parse` (source method `ProfileParser.parse`); `none` models an
exception escaping from `_parse_json_ld`. -/
def parseProfile (debug : Bool) (soup : HNode) : Option Dict :=
  let pd := domProfile debug soup
  match extract_json_ld soup with
  | none => some (addSections pd)
  | some jd => (parse_json_ld jd soup).map (fun jp => addSections (mergeJsonLd pd jp))

/-! ## Per-category detail entry points

The CLI (`src/cli.py`) and the test suite (`tests/test_parser.py`) call
`parser.parse_experience_detail(html)` and eight equivalents on
`ProfileParser`, but `src/scraper/parser.py` does not define them; they are
modelled here from the spec (§6). -/

/-- Modelled from the spec: `parse_experience_detail(markup)` is missing
from `src/scraper/parser.py` (only its callers in `src/cli.py` and
`tests/test_parser.py` exist); per spec §6 it reuses the experience Section
Extractor on the category-scoped page and returns the bare entry list. -/
def parse_experience_detail (debug : Bool) (markup : HNode) : List Dict :=
  extract_experience debug markup

/-- Modelled from the spec: `parse_education_detail(markup)`, missing from
the source; per spec §6 it reuses the education Section Extractor and
returns the bare entry list. -/
def parse_education_detail (markup : HNode) : List Dict := extract_education markup

/-- Modelled from the spec: `parse_skills_detail(markup)`, missing from the
source; per spec §6 it reuses the skills Section Extractor and returns the
bare entry list. -/
def parse_skills_detail (markup : HNode) : List Dict := extract_skills markup

/-- Modelled from the spec: `parse_certifications_detail(markup)`, missing
from the source; per spec §6 it reuses the certifications Section Extractor
and returns the bare entry list. -/
def parse_certifications_detail (markup : HNode) : List Dict := extract_certifications markup

/-- Modelled from the spec: `parse_projects_detail(markup)`, missing from
the source; per spec §6 it reuses the projects Section Extractor and
returns the bare entry list. -/
def parse_projects_detail (markup : HNode) : List Dict := extract_projects markup

/-- Modelled from the spec: `parse_languages_detail(markup)`, missing from
the source; per spec §6 it reuses the languages Section Extractor and
returns the bare entry list. -/
def parse_languages_detail (markup : HNode) : List Dict := extract_languages markup

/-- Modelled from the spec: `parse_volunteer_detail(markup)`, missing from
the source; per spec §6 it reuses the volunteer Section Extractor and
returns the bare entry list. -/
def parse_volunteer_detail (markup : HNode) : List Dict := extract_volunteer markup

/-- Modelled from the spec: `parse_publications_detail(markup)`, missing
from the source; per spec §6 it reuses the publications Section Extractor
and returns the bare entry list. -/
def parse_publications_detail (markup : HNode) : List Dict := extract_publications markup

/-- Modelled from the spec: `parse_honors_detail(markup)`, missing from the
source; per spec §6 it reuses the honors Section Extractor and returns the
bare entry list. -/
def parse_honors_detail (markup : HNode) : List Dict := extract_honors markup

/-! ## Spec-side comparison definitions -/

/-- The grouping condition as the spec words it, read existentially: the
item contains (anywhere) a nested list at least one of whose nested items
has a qualifying title.  To be compared with `classifyGrouped`, which only
inspects the item's first nested list (`item.select_one('ul')`). -/
def specNestedListGrouped (item : HNode) : Bool :=
  (selectAll item [one (stag "ul")]).any (fun ul => (scopeChildrenTag ul "li").any titleQualifies)

/-- First-occurrence case-insensitive filter, written after the spec's
words ("de-duplication by name while preserving first-seen order"): keep an
entry exactly when its lowered name is non-empty and not carried by any
earlier kept entry.  Compared with the source's seen-set loop `dedupLoop`. -/
def dedupFirst (seen : List String) : List Dict → List Dict
  | [] => []
  | sk :: rest =>
      let nm := lowerName sk
      if nm != "" && !seen.contains nm then sk :: dedupFirst (nm :: seen) rest
      else dedupFirst seen rest

/-! ## Concrete documents used by the theorems -/

/-- An `application/ld+json` script block. -/
def ldScript (s : String) : HNode :=
  .elem "script" [("type", "application/ld+json")] [.htext s]

/-- A whole document; the root plays the `BeautifulSoup` object. -/
def mkDoc (body : List HNode) : HNode :=
  .elem "[document]" [] [.elem "html" [] [.elem "body" [] body]]

def personStr : String := "\x7b\"@type\": \"Person\", \"name\": \"Ada\"\x7d"

def personJson : Json := .jobj [("@type", .jstr "Person"), ("name", .jstr "Ada")]

def otherStr : String := "\x7b\"x\": 1\x7d"

/-- A valid block whose graph container holds no Person record. -/
def graphStr : String := "\x7b\"@graph\": [\x7b\"@type\": \"Organization\"\x7d]\x7d"

def graphJson : Json := .jobj [("@graph", .jarr [.jobj [("@type", .jstr "Organization")]])]

/-- Malformed block first, well-formed Person block second. -/
def exC2bad : HNode := mkDoc [ldScript "@@@", ldScript personStr]

/-- The same document without the malformed block. -/
def exC2good : HNode := mkDoc [ldScript personStr]

/-- Two valid non-Person blocks, then a Person block third. -/
def exC6doc : HNode := mkDoc [ldScript otherStr, ldScript otherStr, ldScript personStr]

/-- A forty-character role title. -/
def roleTitle40 : String := "Senior Software Engineer, Platform Teams"

/-- The canonical title node shape the classifier looks for. -/
def titleNode (s : String) : HNode :=
  .elem "div" [("class", "display-flex align-items-center")]
    [.elem "span" [("aria-hidden", "true")] [.htext s]]

def gNested : HNode := .elem "li" [] [titleNode roleTitle40]

/-- An experience item with one nested list holding one titled role. -/
def gItem : HNode := .elem "li" [] [.elem "ul" [] [gNested]]

/-- The same item without a nested list. -/
def sItem : HNode := .elem "li" [] [titleNode roleTitle40]

/-- First nested list without a qualifying title, second nested list with
one: the spec-worded condition holds but the source classifier says
single. -/
def exC3item : HNode :=
  .elem "li" []
    [.elem "ul" [] [.elem "li" [] [.htext "just a description blob"]],
     .elem "ul" [] [.elem "li" [] [titleNode roleTitle40]]]

/-- A span that matches the role-title selector before the real title node
but carries empty text. -/
def emptySpanFlex : HNode :=
  .elem "div" [("class", "display-flex")] [.elem "span" [("aria-hidden", "true")] []]

def zeroRoleNested : HNode := .elem "li" [] [emptySpanFlex, titleNode roleTitle40]

/-- Classified grouped, yet the role-title lookup hits the empty span
first, so every extracted role title is empty. -/
def zeroRoleItem : HNode := .elem "li" [] [.elem "ul" [] [zeroRoleNested]]

/-- An about page whose only candidate carries the given text. -/
def aboutDoc (s : String) : HNode :=
  mkDoc [.elem "section" [("id", "about")]
    [.elem "div" [("class", "pv-shared-text-with-see-more")]
      [.elem "span" [("aria-hidden", "true")] [.htext s]]]]

def about15 : String := "Hello world pal"

def about25 : String := "Hello wonderful world pal"

def skillItem (s : String) : HNode :=
  .elem "li" [("class", "pvs-list__paged-list-item")] [titleNode s]

/-- Two skill entries whose names differ only in case. -/
def exC5doc : HNode :=
  mkDoc [.elem "section" [("id", "skills")] [.elem "ul" [] [skillItem "Python", skillItem "PYTHON"]]]

def locSpan (s : String) : HNode :=
  .elem "span" [("class", "text-body-small inline t-black--light break-words")] [.htext s]

def addressPersonStr : String :=
  "\x7b\"@type\": \"Person\", \"address\": \x7b\"addressLocality\": \"Berlin\"\x7d\x7d"

def addressPersonJson : Json :=
  .jobj [("@type", .jstr "Person"), ("address", .jobj [("addressLocality", .jstr "Berlin")])]

/-- DOM location and structured-data location both supplied. -/
def exC1doc : HNode := mkDoc [locSpan "Madrid, Spain", ldScript addressPersonStr]

def emptyDoc : HNode := mkDoc []

/-- An experience-scoped detail page with a single titled position. -/
def expDetailDoc : HNode :=
  mkDoc [.elem "section" [("id", "experience")] [.elem "ul" [] [sItem]]]

/-- A page whose only candidate headline is its first selector's match. -/
def headlineDoc : HNode :=
  mkDoc [.elem "div" [("class", "text-body-medium break-words")] [.htext "CTO at Things"]]

/-! # Theorems

General lemmas about the embedded combinators first, then one theorem per
claim (witnesses and counterexamples alongside). -/

/-- A value returned by a selector cascade passed its validity check. -/
theorem cascade_valid {soup : HNode} {sels : List CSel} {ext : HNode → String}
    {valid : String → Bool} {t : String} (h : cascade soup sels ext valid = some t) :
    valid t = true := by
  induction sels with
  | nil => simp [cascade] at h
  | cons s rest ih =>
      rw [cascade, List.findSome?_cons] at h
      cases hsel : selectOne soup [s] with
      | none =>
          rw [hsel] at h
          exact ih h
      | some el =>
          rw [hsel] at h
          by_cases hv : valid (ext el) = true
          · simp only [hv, if_true] at h
            cases h
            exact hv
          · simp only [Bool.not_eq_true] at hv
            simp only [hv, Bool.false_eq_true, if_false] at h
            exact ih h

theorem dget_nil (k : String) : dget [] k = none := rfl

theorem dget_cons (kv : String × PyVal) (d : Dict) (k : String) :
    dget (kv :: d) k = if kv.1 == k then some kv.2 else dget d k := by
  by_cases h : kv.1 == k
  · simp [dget, List.find?, h]
  · simp only [Bool.not_eq_true] at h
    simp [dget, List.find?, h]

theorem dget_dset_self (d : Dict) (k : String) (v : PyVal) :
    dget (dset d k v) k = some v := by
  induction d with
  | nil => simp [dset, dget, List.find?]
  | cons kv rest ih =>
      rw [dset]
      by_cases h : kv.1 == k
      · simp [h, dget_cons]
      · simp only [Bool.not_eq_true] at h
        rw [if_neg (by simp [h]), dget_cons, h, if_neg (by simp)]
        exact ih

theorem dget_dset_ne (d : Dict) (k k' : String) (v : PyVal) (h : k ≠ k') :
    dget (dset d k v) k' = dget d k' := by
  induction d with
  | nil => simp [dset, dget_cons, dget_nil, h]
  | cons kv rest ih =>
      rw [dset]
      by_cases hk : kv.1 == k
      · have hkk : kv.1 = k := by simpa using hk
        have hne : (k == k') = false := by simpa using h
        rw [if_pos (by simp [hk]), dget_cons, dget_cons]
        simp only [hne, Bool.false_eq_true, if_false, hkk]
      · simp only [Bool.not_eq_true] at hk
        rw [if_neg (by simp [hk]), dget_cons, dget_cons, ih]

theorem mergeJsonLd_nil (d : Dict) : mergeJsonLd d [] = d := rfl

theorem mergeJsonLd_cons (d : Dict) (kv : String × PyVal) (rest : Dict) :
    mergeJsonLd d (kv :: rest) =
      mergeJsonLd (if !truthyO (dget d kv.1) && truthy kv.2 then dset d kv.1 kv.2 else d) rest := by
  rw [mergeJsonLd, List.foldl_cons]
  by_cases h : !truthyO (dget d kv.1) && truthy kv.2
  · simp only [h, if_true]
    rfl
  · simp only [Bool.not_eq_true] at h
    simp only [h, Bool.false_eq_true, if_false]
    rfl

/-- A field the DOM side already filled is never overwritten by the merge
loop. -/
theorem merge_keeps_truthy (jld : Dict) (d : Dict) (k : String)
    (h : truthyO (dget d k) = true) : dget (mergeJsonLd d jld) k = dget d k := by
  induction jld generalizing d with
  | nil => rfl
  | cons kv rest ih =>
      rw [mergeJsonLd_cons]
      by_cases hk : kv.1 = k
      · subst hk
        simp only [h, Bool.not_true, Bool.false_and, Bool.false_eq_true, if_false]
        exact ih d h
      · by_cases hc : !truthyO (dget d kv.1) && truthy kv.2
        · simp only [hc, if_true]
          have hd : dget (dset d kv.1 kv.2) k = dget d k := dget_dset_ne d kv.1 k kv.2 hk
          rw [ih (dset d kv.1 kv.2) (by rw [hd]; exact h), hd]
        · simp only [Bool.not_eq_true] at hc
          simp only [hc, Bool.false_eq_true, if_false]
          exact ih d h

/-- A key the JSON-LD record does not carry is untouched. -/
theorem merge_not_mem (jld : Dict) (d : Dict) (k : String) (h : k ∉ dkeys jld) :
    dget (mergeJsonLd d jld) k = dget d k := by
  induction jld generalizing d with
  | nil => rfl
  | cons kv rest ih =>
      simp only [dkeys, List.map_cons, List.mem_cons, not_or] at h
      rw [mergeJsonLd_cons]
      by_cases hc : !truthyO (dget d kv.1) && truthy kv.2
      · simp only [hc, if_true]
        rw [ih (dset d kv.1 kv.2) (by simpa [dkeys] using h.2)]
        exact dget_dset_ne d kv.1 k kv.2 (fun he => h.1 he.symm)
      · simp only [Bool.not_eq_true] at hc
        simp only [hc, Bool.false_eq_true, if_false]
        exact ih d (by simpa [dkeys] using h.2)

/-- The per-field rule of the merge loop, for a key the JSON-LD record
carries (its keys assumed distinct, as they are in `parse`). -/
theorem merge_rule (jld : Dict) (d : Dict) (k : String) (v : PyVal)
    (hnd : (dkeys jld).Nodup) (hmem : (k, v) ∈ jld) :
    dget (mergeJsonLd d jld) k =
      if truthyO (dget d k) then dget d k
      else if truthy v then some v else dget d k := by
  induction jld generalizing d with
  | nil => cases hmem
  | cons kv rest ih =>
      simp only [dkeys, List.map_cons, List.nodup_cons] at hnd
      rcases List.mem_cons.mp hmem with hhead | htail
      · have hk : kv.1 = k := by rw [← hhead]
        have hv : kv.2 = v := by rw [← hhead]
        have hknot : k ∉ dkeys rest := by rw [← hk]; exact hnd.1
        rw [mergeJsonLd_cons]
        by_cases ht : truthyO (dget d k) = true
        · simp only [hk, hv, ht, Bool.not_true, Bool.false_and, Bool.false_eq_true, if_false,
            if_true]
          exact merge_not_mem rest d k hknot
        · simp only [Bool.not_eq_true] at ht
          simp only [hk, hv, ht, Bool.not_false, Bool.true_and, Bool.false_eq_true, if_false]
          by_cases htv : truthy v = true
          · simp only [htv, if_true]
            rw [merge_not_mem rest (dset d k v) k hknot]
            exact dget_dset_self d k v
          · simp only [Bool.not_eq_true] at htv
            simp only [htv, Bool.false_eq_true, if_false]
            exact merge_not_mem rest d k hknot
      · have hkne : kv.1 ≠ k := by
          intro he
          exact hnd.1 (he ▸ (List.mem_map.mpr ⟨(k, v), htail, rfl⟩))
        rw [mergeJsonLd_cons]
        by_cases hc : !truthyO (dget d kv.1) && truthy kv.2
        · simp only [hc, if_true]
          have hd : dget (dset d kv.1 kv.2) k = dget d k := dget_dset_ne d kv.1 k kv.2 hkne
          rw [ih (dset d kv.1 kv.2) hnd.2 htail, hd]
        · simp only [Bool.not_eq_true] at hc
          simp only [hc, Bool.false_eq_true, if_false]
          exact ih d hnd.2 htail

/-- Whatever the merge produces at a key is the DOM value or a value the
JSON-LD record carries at that key. -/
theorem merge_dget_cases (jld : Dict) (d : Dict) (k : String) :
    dget (mergeJsonLd d jld) k = dget d k ∨
      ∃ v, (k, v) ∈ jld ∧ dget (mergeJsonLd d jld) k = some v := by
  induction jld generalizing d with
  | nil => exact Or.inl rfl
  | cons kv rest ih =>
      rw [mergeJsonLd_cons]
      by_cases hc : !truthyO (dget d kv.1) && truthy kv.2
      · simp only [hc, if_true]
        rcases ih (dset d kv.1 kv.2) with h | ⟨v, hv, he⟩
        · by_cases hk : kv.1 = k
          · subst hk
            refine Or.inr ⟨kv.2, List.mem_cons_self _ _, ?_⟩
            rw [h]
            exact dget_dset_self d kv.1 kv.2
          · rw [h, dget_dset_ne d kv.1 k kv.2 hk]
            exact Or.inl rfl
        · exact Or.inr ⟨v, List.mem_cons_of_mem _ hv, he⟩
      · simp only [Bool.not_eq_true] at hc
        simp only [hc, Bool.false_eq_true, if_false]
        rcases ih d with h | ⟨v, hv, he⟩
        · exact Or.inl h
        · exact Or.inr ⟨v, List.mem_cons_of_mem _ hv, he⟩

/-! ## De-duplication lemmas (claim C5) -/

/-- The source's seen-set loop equals the spec-worded first-occurrence
filter. -/
theorem dedupLoop_eq (l : List Dict) : ∀ (seen : List String) (acc : List Dict),
    dedupLoop l seen acc = acc ++ dedupFirst seen l := by
  induction l with
  | nil => intro seen acc; simp [dedupLoop, dedupFirst]
  | cons sk rest ih =>
      intro seen acc
      simp only [dedupLoop, dedupFirst]
      by_cases h : (lowerName sk != "" && !seen.contains (lowerName sk)) = true
      · simp only [h, if_true, ih]
        simp
      · simp only [Bool.not_eq_true] at h
        simp only [h, Bool.false_eq_true, if_false, ih]

theorem dedupFirst_sublist (l : List Dict) : ∀ seen, (dedupFirst seen l).Sublist l := by
  induction l with
  | nil => intro seen; simp [dedupFirst]
  | cons sk rest ih =>
      intro seen
      rw [dedupFirst]
      by_cases h : (lowerName sk != "" && !seen.contains (lowerName sk)) = true
      · rw [if_pos h]
        exact (ih _).cons₂ sk
      · rw [if_neg h]
        exact (ih seen).cons sk

theorem dedupFirst_not_seen (l : List Dict) : ∀ seen sk, sk ∈ dedupFirst seen l →
    lowerName sk ∉ seen ∧ lowerName sk ≠ "" := by
  induction l with
  | nil => intro seen sk h; simp [dedupFirst] at h
  | cons x rest ih =>
      intro seen sk h
      rw [dedupFirst] at h
      by_cases hc : (lowerName x != "" && !seen.contains (lowerName x)) = true
      · rw [if_pos hc] at h
        rcases List.mem_cons.mp h with rfl | htail
        · simp only [Bool.and_eq_true, bne_iff_ne, ne_eq, Bool.not_eq_true] at hc
          refine ⟨?_, hc.1⟩
          intro hm
          have hcf : seen.contains (lowerName sk) = false := by simpa using hc.2
          simp [hm] at hcf
        · have h2 := ih (lowerName x :: seen) sk htail
          exact ⟨fun hm => h2.1 (List.mem_cons_of_mem _ hm), h2.2⟩
      · rw [if_neg hc] at h
        exact ih seen sk h

theorem dedupFirst_pairwise (l : List Dict) : ∀ seen,
    List.Pairwise (fun a b => lowerName a ≠ lowerName b) (dedupFirst seen l) := by
  induction l with
  | nil => intro seen; simp [dedupFirst]
  | cons x rest ih =>
      intro seen
      rw [dedupFirst]
      by_cases hc : (lowerName x != "" && !seen.contains (lowerName x)) = true
      · rw [if_pos hc]
        refine List.Pairwise.cons ?_ (ih _)
        intro b hb he
        exact (dedupFirst_not_seen rest _ b hb).1 (he ▸ List.mem_cons_self _ _)
      · rw [if_neg hc]
        exact ih seen

/-- Claim C5: for every input document the skills list has no two entries
with case-insensitively equal names; the output is the first-occurrence
filter of the gathered list (survivor is the first-seen entry, original
order preserved, shown by the loop/spec equivalence and the sublist fact);
two entries differing only in case collapse to one. -/
theorem C5_skills_unique :
    (∀ soup, extract_skills soup =
        match find_skills_section soup with
        | none => []
        | some sect => dedupFirst [] (gather_skills sect)) ∧
    (∀ seen l, (dedupFirst seen l).Sublist l) ∧
    (∀ soup, List.Pairwise (fun a b => lowerName a ≠ lowerName b) (extract_skills soup)) ∧
    extract_skills exC5doc = [[("name", .vStr "Python"), ("endorsements", .vInt 0)]] := by
  have h1 : ∀ soup, extract_skills soup =
      match find_skills_section soup with
      | none => []
      | some sect => dedupFirst [] (gather_skills sect) := by
    intro soup
    rw [extract_skills]
    cases find_skills_section soup with
    | none => rfl
    | some sect => simp [dedupLoop_eq]
  refine ⟨h1, fun seen l => dedupFirst_sublist l seen, ?_, by rfl⟩
  intro soup
  rw [h1 soup]
  cases find_skills_section soup with
  | none => simp
  | some sect => exact dedupFirst_pairwise _ []

/-- Claim C4: the cascade's field-specific validity rules — `about` only
with length strictly above 20 (15 characters rejected to null, 25
accepted), `location` only below 100 characters and free of "connection"
case-insensitively, `headline` only free of "connections"
case-insensitively. -/
theorem C4_field_validity :
    (∀ soup t, extract_about soup = some t → 20 < t.length) ∧
    (extract_about (aboutDoc about15) = none ∧ about15.length = 15) ∧
    (extract_about (aboutDoc about25) = some about25 ∧ about25.length = 25) ∧
    (∀ soup t, extract_location soup = some t →
        t.length < 100 ∧ strContains (lowerS t) "connection" = false) ∧
    (∀ soup t, extract_headline soup = some t →
        strContains (lowerS t) "connections" = false) := by
  refine ⟨?_, ⟨by rfl, by rfl⟩, ⟨by rfl, by rfl⟩, ?_, ?_⟩
  · intro soup t h
    rw [extract_about] at h
    have hv := cascade_valid h
    simp only [Bool.and_eq_true, decide_eq_true_eq] at hv
    exact hv.2
  · intro soup t h
    rw [extract_location] at h
    have hv := cascade_valid h
    simp only [Bool.and_eq_true, decide_eq_true_eq, Bool.not_eq_true'] at hv
    exact ⟨hv.1.2, hv.2⟩
  · intro soup t h
    rw [extract_headline] at h
    have hv := cascade_valid h
    simp only [Bool.and_eq_true, Bool.not_eq_true'] at hv
    exact hv.2

theorem C4_field_validity_witness :
    20 < about25.length ∧
    ("Madrid, Spain".length < 100 ∧ strContains (lowerS "Madrid, Spain") "connection" = false) ∧
    strContains (lowerS "CTO at Things") "connections" = false :=
  ⟨C4_field_validity.1 (aboutDoc about25) about25 (by rfl),
   C4_field_validity.2.2.2.1 exC1doc "Madrid, Spain" (by rfl),
   C4_field_validity.2.2.2.2 headlineDoc "CTO at Things" (by rfl)⟩

/-! ## Sentinel lemmas (claim C9) -/

theorem userCapture_ne_empty (cs : List Char) : ∀ s, userCapture cs = some s → s ≠ "" := by
  induction cs with
  | nil => intro s h; simp [userCapture] at h
  | cons c rest ih =>
      intro s h
      simp only [userCapture] at h
      by_cases h1 : linkedinNeedle.isPrefixOf (c :: rest) = true
      · rw [if_pos h1] at h
        by_cases h2 : (((c :: rest).drop linkedinNeedle.length).takeWhile
            (fun d => d ≠ '/')).isEmpty = true
        · rw [if_pos h2] at h
          exact ih s h
        · rw [if_neg h2] at h
          cases h
          intro he
          have : (((c :: rest).drop linkedinNeedle.length).takeWhile (fun d => d ≠ '/')) = [] := by
            have := congrArg String.data he
            simpa using this
          rw [this] at h2
          simp at h2
      · rw [if_neg h1] at h
        exact ih s h

theorem extract_name_ne (soup : HNode) : extract_name soup ≠ "" := by
  rw [extract_name]
  cases h : cascade soup nameSelectors (getText "") (fun t => t != "") with
  | none => simp
  | some t =>
      have hv := cascade_valid h
      simp only [bne_iff_ne, ne_eq] at hv
      simpa using hv

theorem extract_username_ne (soup : HNode) : extract_username soup ≠ "" := by
  rw [extract_username]
  cases h : findCanonicalHref soup with
  | none => simp
  | some href =>
      dsimp only
      by_cases he : (href == "") = true
      · simp [he]
      · rw [if_neg he]
        cases hu : usernameOfUrl href with
        | none => simp
        | some u => simpa using userCapture_ne_empty href.data u hu

/-- The reconciled record keeps the DOM name and username verbatim: both
DOM values are always truthy, so the merge loop never replaces them. -/
theorem parse_keeps_name_username (debug : Bool) (soup : HNode) (p : Dict)
    (hp : parseProfile debug soup = some p) :
    dget p "name" = some (.vStr (extract_name soup)) ∧
    dget p "username" = some (.vStr (extract_username soup)) := by
  have hname : dget (domProfile debug soup) "name" = some (.vStr (extract_name soup)) := rfl
  have huser : dget (domProfile debug soup) "username" =
      some (.vStr (extract_username soup)) := rfl
  have htn : truthyO (dget (domProfile debug soup) "name") = true := by
    rw [hname]
    simpa [truthyO, truthy] using extract_name_ne soup
  have htu : truthyO (dget (domProfile debug soup) "username") = true := by
    rw [huser]
    simpa [truthyO, truthy] using extract_username_ne soup
  simp only [parseProfile] at hp
  cases hjd : extract_json_ld soup with
  | none =>
      rw [hjd] at hp
      simp only [Option.some.injEq] at hp
      subst hp
      constructor
      · rw [addSections, dget_dset_ne _ _ _ _ (by decide), hname]
      · rw [addSections, dget_dset_ne _ _ _ _ (by decide), huser]
  | some jd =>
      rw [hjd] at hp
      dsimp only at hp
      cases hjp : parse_json_ld jd soup with
      | none => rw [hjp] at hp; exact Option.noConfusion hp
      | some jp =>
          rw [hjp] at hp
          simp only [Option.map_some', Option.some.injEq] at hp
          subst hp
          constructor
          · rw [addSections, dget_dset_ne _ _ _ _ (by decide),
              merge_keeps_truthy jp _ _ htn, hname]
          · rw [addSections, dget_dset_ne _ _ _ _ (by decide),
              merge_keeps_truthy jp _ _ htu, huser]

/-- Claim C9: the parsed record's name and username are always non-empty
strings — a missed name cascade yields the sentinel "Name Not Found", a
missed canonical-link pattern yields the sentinel "linkedin-profile" — and
because the DOM name is always non-empty, reconciliation never substitutes
the structured-data name (or username) into the output. -/
theorem C9_name_username_sentinels :
    (∀ soup, extract_name soup ≠ "" ∧ extract_username soup ≠ "") ∧
    (∀ soup, cascade soup nameSelectors (getText "") (fun t => t != "") = none →
        extract_name soup = "Name Not Found") ∧
    (∀ soup, findCanonicalHref soup = none → extract_username soup = "linkedin-profile") ∧
    (∀ soup href, findCanonicalHref soup = some href → usernameOfUrl href = none →
        extract_username soup = "linkedin-profile") ∧
    (∀ debug soup p, parseProfile debug soup = some p →
        dget p "name" = some (.vStr (extract_name soup)) ∧
        dget p "username" = some (.vStr (extract_username soup))) := by
  refine ⟨fun soup => ⟨extract_name_ne soup, extract_username_ne soup⟩, ?_, ?_, ?_,
    parse_keeps_name_username⟩
  · intro soup h
    rw [extract_name, h]
    rfl
  · intro soup h
    rw [extract_username, h]
  · intro soup href h hu
    rw [extract_username, h]
    dsimp only
    by_cases he : (href == "") = true
    · rw [if_pos he]
    · rw [if_neg he, hu]
      rfl

theorem C9_name_username_sentinels_witness :
    extract_name emptyDoc = "Name Not Found" ∧
    extract_username emptyDoc = "linkedin-profile" ∧
    dget ((parseProfile false emptyDoc).getD []) "name" =
      some (.vStr (extract_name emptyDoc)) :=
  ⟨C9_name_username_sentinels.2.1 emptyDoc (by rfl),
   C9_name_username_sentinels.2.2.1 emptyDoc (by rfl),
   (C9_name_username_sentinels.2.2.2.2 false emptyDoc ((parseProfile false emptyDoc).getD [])
     (by rfl)).1⟩

/-- Claim C8: `parse` is a pure function of the markup alone; the
constructor-level debug flag (modelled as the extra argument it is threaded
through, gating only `print` calls) does not influence any extracted value,
so two calls with any two flags agree exactly. -/
theorem C8_parse_debug_independent :
    ∀ (d1 d2 : Bool) (soup : HNode), parseProfile d1 soup = parseProfile d2 soup :=
  fun _ _ _ => rfl

/-- Claim C1: reconciliation is a per-field merge — for every field the
JSON-LD record carries, the DOM value is kept when truthy, and the
structured value is substituted only when the DOM value is empty and the
structured one non-empty; fields the JSON-LD record does not carry are
untouched; in particular, on a document where both sources supply a
location, the DOM-derived location is the one in `parse`'s output. -/
theorem C1_merge_per_field :
    (∀ (dom jld : Dict) (k : String) (v : PyVal),
        (dkeys jld).Nodup → (k, v) ∈ jld →
        dget (mergeJsonLd dom jld) k =
          if truthyO (dget dom k) then dget dom k
          else if truthy v then some v else dget dom k) ∧
    (∀ (dom jld : Dict) (k : String), k ∉ dkeys jld →
        dget (mergeJsonLd dom jld) k = dget dom k) ∧
    ((parseProfile false exC1doc).bind (fun p => dget p "location") =
        some (.vStr "Madrid, Spain") ∧
      dget (domProfile false exC1doc) "location" = some (.vStr "Madrid, Spain") ∧
      extract_json_ld exC1doc = some addressPersonJson ∧
      (parse_json_ld addressPersonJson exC1doc).bind (fun jp => dget jp "location") =
        some (.vStr "Berlin")) :=
  ⟨fun dom jld k v hnd hmem => merge_rule jld dom k v hnd hmem,
   fun dom jld k h => merge_not_mem jld dom k h,
   by rfl, by rfl, by rfl, by rfl⟩

theorem C1_merge_per_field_witness :
    dget (mergeJsonLd [("location", .vStr "Madrid")] [("location", .vStr "Berlin")])
        "location" = some (.vStr "Madrid") ∧
    dget (mergeJsonLd [("location", .vNone)] [("location", .vStr "Berlin")]) "location" =
      some (.vStr "Berlin") := by
  constructor
  · rw [C1_merge_per_field.1 [("location", .vStr "Madrid")] [("location", .vStr "Berlin")]
      "location" (.vStr "Berlin") (by simp [dkeys]) (by simp)]
    rfl
  · rw [C1_merge_per_field.1 [("location", .vNone)] [("location", .vStr "Berlin")]
      "location" (.vStr "Berlin") (by simp [dkeys]) (by simp)]
    rfl

/-- Claim C2 is false on the code, traced fully at `exC2bad`: its candidate
script blocks are exactly a first block whose string "@@@" fails to parse
as JSON and a second block holding a well-formed Person record, so the
claim says the Person is still found — yet the extractor returns `None`.
The `try` of `_extract_json_ld` wraps the whole loop, so the `json.loads`
exception on the first block aborts the scan before the later Person block
(which is found when the malformed block is absent) is reached. -/
theorem C2_skip_counterexample :
    selectAll exC2bad [ldScriptSel] = [ldScript "@@@", ldScript personStr] ∧
    nodeString (ldScript "@@@") = some "@@@" ∧
    jloads "@@@" = none ∧
    nodeString (ldScript personStr) = some personStr ∧
    jloads personStr = some personJson ∧
    isPersonTag personJson = true ∧
    extract_json_ld exC2bad = none ∧
    extract_json_ld exC2good = some personJson :=
  ⟨by rfl, by rfl, by rfl, by rfl, by rfl, by rfl, by rfl, by rfl⟩

/-- Claim C2 as amended: a block that parses as JSON but lacks the Person
schema — no Person `@type`, whether it has no `@graph` container or an
`@graph` array holding no Person — is skipped and scanning continues with
the next candidate block; but a block whose string fails to parse as JSON
aborts structured-data extraction entirely (the single `try` around the
loop returns `None`, falling back to DOM-only), so a later well-formed
Person block is not found in that case.  The extractor traps every
exception (it is a total function here), so no input makes it raise. -/
theorem C2_skip_amended :
    (∀ s rest str j, nodeString s = some str → str ≠ "" → jloads str = some j →
        isPersonTag j = false → jget j "@graph" = none →
        scanJsonLd (s :: rest) = scanJsonLd rest) ∧
    (∀ s rest str j items, nodeString s = some str → str ≠ "" → jloads str = some j →
        isPersonTag j = false → jget j "@graph" = some (.jarr items) →
        findPerson items = none →
        scanJsonLd (s :: rest) = scanJsonLd rest) ∧
    (∀ s rest str, nodeString s = some str → str ≠ "" → jloads str = none →
        scanJsonLd (s :: rest) = none) ∧
    extract_json_ld exC2bad = none := by
  refine ⟨?_, ?_, ?_, by rfl⟩
  · intro s rest str j hs hne hj hp hg
    rw [scanJsonLd, hs]
    dsimp only
    rw [if_neg (by simpa using hne), hj]
    dsimp only
    rw [if_neg (by simp [hp]), hg]
  · intro s rest str j items hs hne hj hp hg hf
    rw [scanJsonLd, hs]
    dsimp only
    rw [if_neg (by simpa using hne), hj]
    dsimp only
    rw [if_neg (by simp [hp]), hg]
    dsimp only
    rw [hf]
  · intro s rest str hs hne hj
    rw [scanJsonLd, hs]
    dsimp only
    rw [if_neg (by simpa using hne), hj]

theorem C2_skip_amended_witness :
    scanJsonLd [ldScript "@@@", ldScript personStr] = none ∧
    scanJsonLd [ldScript otherStr, ldScript personStr] = scanJsonLd [ldScript personStr] ∧
    scanJsonLd [ldScript graphStr, ldScript personStr] = scanJsonLd [ldScript personStr] := by
  refine ⟨?_, ?_, ?_⟩
  · exact C2_skip_amended.2.2.1 (ldScript "@@@") [ldScript personStr] "@@@" rfl (by decide) rfl
  · exact C2_skip_amended.1 (ldScript otherStr) [ldScript personStr] otherStr
      (.jobj [("x", .jnum 1)]) rfl (by decide) rfl rfl rfl
  · exact C2_skip_amended.2.1 (ldScript graphStr) [ldScript personStr] graphStr graphJson
      [.jobj [("@type", .jstr "Organization")]] rfl (by decide) rfl rfl rfl rfl

/-- Claim C6 is false on the code: `_extract_json_ld` loops over all the
candidate script blocks without any two-block cap, so a Person record in
the third candidate block (the document's full candidate list is shown) is
found and used. -/
theorem C6_third_block_counterexample :
    extract_json_ld exC6doc = some personJson ∧
    selectAll exC6doc [ldScriptSel] =
      [ldScript otherStr, ldScript otherStr, ldScript personStr] ∧
    isPersonTag personJson = true :=
  ⟨by rfl, by rfl, by rfl⟩

/-- Claim C6 as amended: the extractor scans every candidate block in
document order and the first Person match wins. -/
theorem C6_scan_all_amended :
    (∀ s rest str j, nodeString s = some str → str ≠ "" → jloads str = some j →
        isPersonTag j = true → scanJsonLd (s :: rest) = some j) ∧
    extract_json_ld exC6doc = some personJson := by
  refine ⟨?_, by rfl⟩
  intro s rest str j hs hne hj hp
  rw [scanJsonLd, hs]
  dsimp only
  rw [if_neg (by simpa using hne), hj]
  dsimp only
  rw [if_pos hp]

theorem C6_scan_all_amended_witness :
    scanJsonLd [ldScript personStr, ldScript "@@@"] = some personJson :=
  C6_scan_all_amended.1 (ldScript personStr) [ldScript "@@@"] personStr personJson rfl
    (by decide) rfl rfl

/-- Claim C7 (spec-modelled): the nine per-category secondary entry points,
absent from the source and reconstructed from the spec, each return exactly
the bare entry list of the matching section extractor on the given page; on
an experience-scoped page the result is the entry list itself, not a full
profile record. -/
theorem C7_detail_entry_points :
    (∀ debug markup, parse_experience_detail debug markup = extract_experience debug markup) ∧
    (∀ markup, parse_education_detail markup = extract_education markup) ∧
    (∀ markup, parse_skills_detail markup = extract_skills markup) ∧
    (∀ markup, parse_certifications_detail markup = extract_certifications markup) ∧
    (∀ markup, parse_projects_detail markup = extract_projects markup) ∧
    (∀ markup, parse_languages_detail markup = extract_languages markup) ∧
    (∀ markup, parse_volunteer_detail markup = extract_volunteer markup) ∧
    (∀ markup, parse_publications_detail markup = extract_publications markup) ∧
    (∀ markup, parse_honors_detail markup = extract_honors markup) ∧
    parse_experience_detail false expDetailDoc = [[("title", .vStr roleTitle40)]] :=
  ⟨fun _ _ => rfl, fun _ => rfl, fun _ => rfl, fun _ => rfl, fun _ => rfl, fun _ => rfl,
   fun _ => rfl, fun _ => rfl, fun _ => rfl, by rfl⟩

/-! ## Experience shape lemmas (claims C3 and C10) -/

theorem dget_optField_append (k' : String) (v : Option PyVal) (rest : Dict) (k : String)
    (h : (k' == k) = false) : dget (optField k' v ++ rest) k = dget rest k := by
  cases v with
  | none => rfl
  | some x => simp [optField, dget_cons, h]

theorem groupedExpDict_is_grouped (company totalDur location : Option String)
    (roles : List Dict) :
    dget (groupedExpDict company totalDur location roles) "is_grouped" =
      some (.vBool true) := by
  rw [groupedExpDict, dget_optField_append _ _ _ _ (by decide),
    dget_optField_append _ _ _ _ (by decide), dget_optField_append _ _ _ _ (by decide)]
  rfl

theorem groupedExpDict_roles (company totalDur location : Option String)
    (roles : List Dict) :
    dget (groupedExpDict company totalDur location roles) "roles" =
      some (.vList (roles.map .vDict)) := by
  rw [groupedExpDict, dget_optField_append _ _ _ _ (by decide),
    dget_optField_append _ _ _ _ (by decide), dget_optField_append _ _ _ _ (by decide)]
  rfl

theorem singleExpDict_no_grouped_keys (title company empT duration location descr :
    Option String) (skills : List String) :
    dget (singleExpDict title company empT duration location descr skills) "is_grouped" = none ∧
    dget (singleExpDict title company empT duration location descr skills) "roles" = none := by
  constructor <;>
  · rw [singleExpDict, dget_optField_append _ _ _ _ (by decide),
      dget_optField_append _ _ _ _ (by decide), dget_optField_append _ _ _ _ (by decide),
      dget_optField_append _ _ _ _ (by decide), dget_optField_append _ _ _ _ (by decide),
      dget_optField_append _ _ _ _ (by decide)]
    cases skills.isEmpty <;> simp [dget_cons, dget_nil]

theorem extract_grouped_inv (item : HNode) (e : Dict)
    (h : extract_grouped_experience item = some e) :
    dget e "is_grouped" = some (.vBool true) ∧
    ∃ rs : List Dict, dget e "roles" = some (.vList (rs.map .vDict)) ∧ rs ≠ [] := by
  rw [extract_grouped_experience] at h
  split at h
  · exact Option.noConfusion h
  · rename_i hne
    simp only [Option.some.injEq] at h
    subst h
    refine ⟨groupedExpDict_is_grouped _ _ _ _, _, groupedExpDict_roles _ _ _ _, ?_⟩
    intro hnil
    rw [hnil] at hne
    simp at hne

theorem extract_single_inv (item : HNode) (e : Dict)
    (h : extract_single_experience item = some e) :
    dget e "is_grouped" = none ∧ dget e "roles" = none := by
  rw [extract_single_experience] at h
  split at h
  · exact Option.noConfusion h
  · simp only [Option.some.injEq] at h
    subst h
    exact singleExpDict_no_grouped_keys _ _ _ _ _ _ _

/-- The per-entry shape invariant over the experience item loop. -/
theorem experienceFromItems_inv (items : List HNode) :
    ∀ e ∈ experienceFromItems items,
      (dget e "is_grouped" = some (.vBool true) ∧
        ∃ rs : List Dict, dget e "roles" = some (.vList (rs.map .vDict)) ∧ rs ≠ []) ∨
      (dget e "is_grouped" = none ∧ dget e "roles" = none) := by
  induction items with
  | nil => intro e he; simp [experienceFromItems] at he
  | cons item rest ih =>
      intro e he
      rw [experienceFromItems] at he
      by_cases hc : classifyGrouped item = true
      · rw [if_pos hc] at he
        cases hg : extract_grouped_experience item with
        | none => rw [hg] at he; exact ih e he
        | some e0 =>
            rw [hg] at he
            dsimp only at he
            rcases List.mem_cons.mp he with rfl | htail
            · exact Or.inl (extract_grouped_inv item e hg)
            · exact ih e htail
      · rw [if_neg hc] at he
        cases hs : extract_single_experience item with
        | none => rw [hs] at he; exact ih e he
        | some e0 =>
            rw [hs] at he
            dsimp only at he
            by_cases ht : truthyO (dget e0 "title") = true
            · rw [if_pos ht] at he
              rcases List.mem_cons.mp he with rfl | htail
              · exact Or.inr (extract_single_inv item e hs)
              · exact ih e htail
            · rw [if_neg ht] at he
              exact ih e he

theorem extract_experience_inv (debug : Bool) (soup : HNode) :
    ∀ e ∈ extract_experience debug soup,
      (dget e "is_grouped" = some (.vBool true) ∧
        ∃ rs : List Dict, dget e "roles" = some (.vList (rs.map .vDict)) ∧ rs ≠ []) ∨
      (dget e "is_grouped" = none ∧ dget e "roles" = none) := by
  intro e he
  rw [extract_experience] at he
  cases hsec : find_experience_section soup with
  | none => rw [hsec] at he; simp at he
  | some sect =>
      rw [hsec] at he
      dsimp only at he
      rw [List.mem_flatMap] at he
      obtain ⟨c, _, hec⟩ := he
      exact experienceFromItems_inv _ e hec

/-- One JSON-LD experience entry exposes neither `is_grouped` nor `roles`. -/
theorem jldExpOne_keys (wf : List (String × Json)) (e : Dict) (h : jldExpOne wf = some e) :
    dget e "is_grouped" = none ∧ dget e "roles" = none := by
  rw [jldExpOne] at h
  dsimp only at h
  cases h1 : jldTitleCompany ((lookupLast wf "name").getD (.jstr ""))
      (match lookupLast wf "member" with | some (.jobj fs) => fs | _ => []) with
  | none => rw [h1] at h; exact Option.noConfusion h
  | some tc =>
      rw [h1] at h
      dsimp only at h
      cases h2 : jldDescription
          (match lookupLast wf "member" with | some (.jobj fs) => fs | _ => []) with
      | none => rw [h2] at h; exact Option.noConfusion h
      | some desc =>
          rw [h2] at h
          dsimp only at h
          simp only [Option.some.injEq] at h
          subst h
          exact ⟨rfl, rfl⟩

theorem jldExpList_keys (items : List Json) : ∀ l, jldExpList items = some l →
    ∀ e ∈ l, dget e "is_grouped" = none ∧ dget e "roles" = none := by
  induction items with
  | nil =>
      intro l h e he
      rw [jldExpList] at h
      simp only [Option.some.injEq] at h
      subst h
      simp at he
  | cons item rest ih =>
      intro l h e he
      cases item with
      | jobj fs =>
          rw [jldExpList] at h
          cases h1 : jldExpOne fs with
          | none => rw [h1] at h; exact Option.noConfusion h
          | some e0 =>
              rw [h1] at h
              dsimp only at h
              cases h2 : jldExpList rest with
              | none => rw [h2] at h; exact Option.noConfusion h
              | some l0 =>
                  rw [h2] at h
                  simp only [Option.map_some', Option.some.injEq] at h
                  subst h
                  rcases List.mem_cons.mp he with rfl | htail
                  · exact jldExpOne_keys fs e h1
                  · exact ih l0 h2 e htail
      | jnull =>
          rw [jldExpList] at h
          exacts [ih l h e he, fun fields hff => Json.noConfusion hff]
      | jbool b =>
          rw [jldExpList] at h
          exacts [ih l h e he, fun fields hff => Json.noConfusion hff]
      | jnum n =>
          rw [jldExpList] at h
          exacts [ih l h e he, fun fields hff => Json.noConfusion hff]
      | jstr s =>
          rw [jldExpList] at h
          exacts [ih l h e he, fun fields hff => Json.noConfusion hff]
      | jarr xs =>
          rw [jldExpList] at h
          exacts [ih l h e he, fun fields hff => Json.noConfusion hff]

theorem jldExperience_keys (w : Json) (l : List Dict) (h : jldExperience w = some l) :
    ∀ e ∈ l, dget e "is_grouped" = none ∧ dget e "roles" = none := by
  rw [jldExperience] at h
  by_cases hf : jfalsy w = true
  · rw [if_pos hf] at h
    simp only [Option.some.injEq] at h
    subst h
    intro e he
    simp at he
  · rw [if_neg hf] at h
    cases hi : pyIter w with
    | none => rw [hi] at h; exact Option.noConfusion h
    | some items => rw [hi] at h; exact jldExpList_keys items l h

/-- A successful `_parse_json_ld` yields an 18-key record; its keys are
distinct, and its `experience` value is a list of dicts carrying neither
`is_grouped` nor `roles`. -/
theorem parse_json_ld_shape (j : Json) (s : HNode) (jp : Dict)
    (h : parse_json_ld j s = some jp) :
    (dkeys jp).Nodup ∧
    ∃ exps : List Dict, ("experience", PyVal.vList (exps.map .vDict)) ∈ jp ∧
      ∀ e ∈ exps, dget e "is_grouped" = none ∧ dget e "roles" = none := by
  rw [parse_json_ld] at h
  cases h1 : jldUsername j with
  | none => rw [h1] at h; exact Option.noConfusion h
  | some username =>
  rw [h1] at h
  dsimp only at h
  cases h2 : jldHeadline j with
  | none => rw [h2] at h; exact Option.noConfusion h
  | some headline =>
  rw [h2] at h
  dsimp only at h
  cases h3 : parse_json_ld_location ((jget j "address").getD (.jobj [])) with
  | none => rw [h3] at h; exact Option.noConfusion h
  | some loc =>
  rw [h3] at h
  dsimp only at h
  cases h4 : jldExperience ((jget j "worksFor").getD (.jarr [])) with
  | none => rw [h4] at h; exact Option.noConfusion h
  | some exps =>
  rw [h4] at h
  dsimp only at h
  cases h5 : jldEducation ((jget j "alumniOf").getD (.jarr [])) with
  | none => rw [h5] at h; exact Option.noConfusion h
  | some edus =>
  rw [h5] at h
  dsimp only at h
  cases h6 : jldLanguages ((jget j "knowsLanguage").getD (.jarr [])) with
  | none => rw [h6] at h; exact Option.noConfusion h
  | some langs =>
  rw [h6] at h
  simp only [Option.some.injEq] at h
  subst h
  refine ⟨by simp [dkeys], exps, by simp, jldExperience_keys _ exps h4⟩

/-- Claim C3 is false as stated: the spec-worded condition (some nested
list holds a qualifying title) is true of this item, yet the classifier —
which looks only at `item.select_one('ul')`, the first nested list in
document order — says single, and the item is handed to the single-position
extractor. -/
theorem C3_grouping_counterexample :
    specNestedListGrouped exC3item = true ∧
    classifyGrouped exC3item = false ∧
    (extract_single_experience exC3item).isSome = true :=
  ⟨by rfl, by rfl, by rfl⟩

/-- Claim C3 as amended: an item is classified grouped iff its first
nested list (document order, `select_one('ul')`) has a direct nested item
whose candidate title text is non-empty and shorter than 200 characters;
the claim's concrete behaviours hold — one qualifying 40-character nested
title yields a grouped entry with exactly one role, and the same item
without a nested list is single and exposes a `title` field directly. -/
theorem C3_grouping_amended :
    (∀ item, classifyGrouped item = true ↔
        (∃ ul, selectOne item [one (stag "ul")] = some ul ∧
          ∃ li ∈ scopeChildrenTag ul "li", ∃ el, selectOne li [alignTitleSel] = some el ∧
            0 < (getText "" el).length ∧ (getText "" el).length < 200)) ∧
    (roleTitle40.length = 40 ∧ classifyGrouped gItem = true ∧
      (extract_grouped_experience gItem).bind (fun e => dget e "roles") =
        some (.vList [.vDict [("title", .vStr roleTitle40)]])) ∧
    (classifyGrouped sItem = false ∧
      (extract_single_experience sItem).bind (fun e => dget e "title") =
        some (.vStr roleTitle40)) := by
  refine ⟨?_, ⟨by rfl, by rfl, by rfl⟩, ⟨by rfl, by rfl⟩⟩
  intro item
  rw [classifyGrouped]
  cases h : selectOne item [one (stag "ul")] with
  | none =>
      simp only [Bool.false_eq_true, false_iff]
      rintro ⟨ul, hul, -⟩
      exact Option.noConfusion hul
  | some nl =>
      dsimp only
      rw [List.any_eq_true]
      constructor
      · rintro ⟨li, hli, hq⟩
        refine ⟨nl, rfl, li, hli, ?_⟩
        rw [titleQualifies] at hq
        cases he : selectOne li [alignTitleSel] with
        | none => rw [he] at hq; exact Bool.noConfusion hq
        | some el =>
            rw [he] at hq
            dsimp only at hq
            simp only [Bool.and_eq_true, decide_eq_true_eq] at hq
            exact ⟨el, rfl, hq.1, hq.2⟩
      · rintro ⟨ul, hul, li, hli, el, hel, h1, h2⟩
        simp only [Option.some.injEq] at hul
        subst hul
        refine ⟨li, hli, ?_⟩
        rw [titleQualifies, hel]
        dsimp only
        simp [h1, h2]

/-- Claim C10: in `parse`'s output every experience entry either is a
grouped entry — `is_grouped` equal to true together with a non-empty roles
list — or carries neither an `is_grouped` nor a `roles` field (single-role
entries, including any substituted from structured data); and an item
classified grouped from which no titled role could be extracted produces
no entry at all. -/
theorem C10_grouped_entry_invariant :
    (∀ debug soup p v, parseProfile debug soup = some p → dget p "experience" = some v →
        ∃ entries : List Dict, v = .vList (entries.map .vDict) ∧
          ∀ e ∈ entries,
            (dget e "is_grouped" = some (.vBool true) ∧
              ∃ rs : List Dict, dget e "roles" = some (.vList (rs.map .vDict)) ∧ rs ≠ []) ∨
            (dget e "is_grouped" = none ∧ dget e "roles" = none)) ∧
    (classifyGrouped zeroRoleItem = true ∧
      extract_grouped_experience zeroRoleItem = none) := by
  refine ⟨?_, ⟨by rfl, by rfl⟩⟩
  intro debug soup p v hp hv
  have hdom : dget (domProfile debug soup) "experience" =
      some (.vList ((extract_experience debug soup).map .vDict)) := rfl
  simp only [parseProfile] at hp
  cases hjd : extract_json_ld soup with
  | none =>
      rw [hjd] at hp
      simp only [Option.some.injEq] at hp
      subst hp
      rw [addSections, dget_dset_ne _ _ _ _ (by decide), hdom] at hv
      simp only [Option.some.injEq] at hv
      subst hv
      exact ⟨extract_experience debug soup, rfl, extract_experience_inv debug soup⟩
  | some jd =>
      rw [hjd] at hp
      dsimp only at hp
      cases hjp : parse_json_ld jd soup with
      | none => rw [hjp] at hp; exact Option.noConfusion hp
      | some jp =>
          rw [hjp] at hp
          simp only [Option.map_some', Option.some.injEq] at hp
          subst hp
          obtain ⟨hnd, exps, hmem, hexps⟩ := parse_json_ld_shape jd soup jp hjp
          rw [addSections, dget_dset_ne _ _ _ _ (by decide),
            merge_rule jp (domProfile debug soup) "experience" (.vList (exps.map .vDict))
              hnd hmem] at hv
          by_cases ht : truthyO (dget (domProfile debug soup) "experience") = true
          · rw [if_pos ht, hdom] at hv
            simp only [Option.some.injEq] at hv
            subst hv
            exact ⟨extract_experience debug soup, rfl, extract_experience_inv debug soup⟩
          · rw [if_neg ht] at hv
            by_cases hte : truthy (PyVal.vList (exps.map .vDict)) = true
            · rw [if_pos hte] at hv
              simp only [Option.some.injEq] at hv
              subst hv
              exact ⟨exps, rfl, fun e he => Or.inr (hexps e he)⟩
            · rw [if_neg hte, hdom] at hv
              simp only [Option.some.injEq] at hv
              subst hv
              exact ⟨extract_experience debug soup, rfl, extract_experience_inv debug soup⟩

end LCV
